import Mathlib

/-!
# hello-spinnaker-demo: the vendored `health` package and its handler

A shallow embedding of `vendor/github.com/dimiro1/health` (`health.go`,
`checker.go`, `handler.go`) and of the wiring in `main.go`.

* A Go `map[string]interface{}` is an association list read with "the latest
  binding of a key wins"; `m[k] = v` drops the bindings of `k` and appends
  `(k, v)`.  A `nil` map is `none`.
* `status` is the Go string type of that name, so the zero value `""` of a
  `Health{}` literal is representable.
* A `Checker` is a record holding its `Check` method.
-/

namespace health

/-! ## Maps -/

/-- A Go map with string keys: the list of its bindings, the latest binding of a key being
the live one. -/
abbrev GoMap (β : Type) := List (String × β)

/-- The live binding of `k`, if any (the comma-ok form of an index expression). -/
def GoMap.find? {β : Type} : GoMap β → String → Option β
  | [], _ => none
  | (k', v) :: rest, k =>
    match GoMap.find? rest k with
    | some w => some w
    | none => if k' = k then some v else none

/-- The assignment `m[k] = v`. -/
def GoMap.set {β : Type} (m : GoMap β) (k : String) (v : β) : GoMap β :=
  m.filter (fun e => decide (e.1 ≠ k)) ++ [(k, v)]

/-- The keys of a map. -/
def GoMap.keys {β : Type} (m : GoMap β) : List String :=
  m.map Prod.fst

/-! ## health.go -/

/-- The declaration `type status string`. -/
abbrev status := String

/-- Constant `up`. -/
def up : status := "UP"
/-- Constant `down`. -/
def down : status := "DOWN"
/-- Constant `outOfService`. -/
def outOfService : status := "OUT OF SERVICE"
/-- Constant `unknown`. -/
def unknown : status := "UNKNOWN"

/-- A value held in an `interface{}`: the nil interface, a scalar, or a `Health` struct
(its two fields; `info` is `none` for a nil map). -/
inductive Value where
  | nil
  | bool (b : Bool)
  | int (n : Int)
  | str (s : String)
  | health (status : String) (info : Option (List (String × Value)))

/-- The struct `Health`. -/
structure Health where
  status : status
  info : Option (GoMap Value)

/-- A `Health` stored in an `interface{}`. -/
def Value.ofHealth (h : Health) : Value :=
  Value.health h.status h.info

/-- A JSON document; an object is the list of its members, read like a `GoMap`. -/
inductive Json where
  | null
  | bool (b : Bool)
  | num (n : Int)
  | str (s : String)
  | obj (members : List (String × Json))

/-- The statement `for k, v := range src { dst[k] = v }`; nothing is copied from a nil map. -/
def GoMap.copyInto {β : Type} (dst : GoMap β) (src : Option (GoMap β)) : GoMap β :=
  match src with
  | none => dst
  | some m => m.foldl (fun d e => GoMap.set d e.1 e.2) dst

/-- The map `data` that `Health.MarshalJSON` hands to `json.Marshal`. -/
def Health.marshalData (h : Health) : GoMap Value :=
  let data : GoMap Value := []
  let data := GoMap.copyInto data h.info
  let data := GoMap.set data "status" (Value.str h.status)
  data

mutual
/-- What `encoding/json` produces for a value; a `Health` is encoded by its `MarshalJSON`,
unfolded here so that the recursion is structural (see `toJson_ofHealth`). -/
def Value.toJson : Value → Json
  | Value.nil => Json.null
  | Value.bool b => Json.bool b
  | Value.int n => Json.num n
  | Value.str s => Json.str s
  | Value.health st inf =>
    Json.obj (GoMap.set (GoMap.copyInto [] (infoToJson inf)) "status" (Json.str st))
/-- Encodes the values of an optional map. -/
def infoToJson : Option (List (String × Value)) → Option (List (String × Json))
  | none => none
  | some m => some (entriesToJson m)
/-- Encodes the values of a list of bindings. -/
def entriesToJson : List (String × Value) → List (String × Json)
  | [] => []
  | (k, v) :: rest => (k, Value.toJson v) :: entriesToJson rest
end

/-- The call `json.Marshal(data)` on a `map[string]interface{}`: an object with one member
per key (the key order of the text is not modelled). -/
def jsonMarshal (data : GoMap Value) : Json :=
  Json.obj (data.map (fun e => (e.1, Value.toJson e.2)))

/-- The method `Health.MarshalJSON`. -/
def Health.MarshalJSON (h : Health) : Json :=
  jsonMarshal h.marshalData

/-- The member of a JSON object under a key; `none` for a missing key or a non-object. -/
def Json.member? (j : Json) (k : String) : Option Json :=
  match j with
  | Json.obj members => GoMap.find? members k
  | _ => none

/-- The keys of a JSON object. -/
def Json.keys (j : Json) : List String :=
  match j with
  | Json.obj members => GoMap.keys members
  | _ => []

/-- The method `Unknown`: the receiver after the call. -/
def Health.Unknown (h : Health) : Health :=
  { h with status := unknown }

/-- The method `Up`: the receiver after the call. -/
def Health.Up (h : Health) : Health :=
  { h with status := up }

/-- The method `Down`: the receiver after the call. -/
def Health.Down (h : Health) : Health :=
  { h with status := down }

/-- The method `OutOfService`: the receiver after the call. -/
def Health.OutOfService (h : Health) : Health :=
  { h with status := outOfService }

/-- The function `NewHealth`. -/
def NewHealth : Health :=
  let h : Health := { status := "", info := some [] }
  let h := h.Unknown
  h

/-- The method `AddInfo`: the receiver after the call. -/
def Health.AddInfo (h : Health) (key : String) (value : Value) : Health :=
  let h : Health := if h.info.isNone then { h with info := some [] } else h
  { h with info := h.info.map (fun m => GoMap.set m key value) }

/-- The method `GetInfo`; indexing a map (also a nil one) at a missing key gives nil. -/
def Health.GetInfo (h : Health) (key : String) : Value :=
  match h.info with
  | none => Value.nil
  | some m => (GoMap.find? m key).getD Value.nil

/-- The method `IsUnknown`. -/
def Health.IsUnknown (h : Health) : Bool :=
  h.status == unknown

/-- The method `IsUp`. -/
def Health.IsUp (h : Health) : Bool :=
  h.status == up

/-- The method `IsDown`. -/
def Health.IsDown (h : Health) : Bool :=
  h.status == down

/-- The method `IsOutOfService`. -/
def Health.IsOutOfService (h : Health) : Bool :=
  h.status == outOfService

/-! ### Pointer receivers

The mutators have a pointer receiver and return it.  A store maps addresses to `Health`
values; a call returns the store afterwards and the returned pointer. -/

/-- Memory holding `Health` values. -/
abbrev Store := Nat → Health

/-- The call `h.Up()` on the pointer `h`. -/
def Store.Up (σ : Store) (h : Nat) : Store × Nat :=
  let σ := Function.update σ h (σ h).Up
  (σ, h)

/-- The call `h.Down()` on the pointer `h`. -/
def Store.Down (σ : Store) (h : Nat) : Store × Nat :=
  let σ := Function.update σ h (σ h).Down
  (σ, h)

/-- The call `h.OutOfService()` on the pointer `h`. -/
def Store.OutOfService (σ : Store) (h : Nat) : Store × Nat :=
  let σ := Function.update σ h (σ h).OutOfService
  (σ, h)

/-- The call `h.Unknown()` on the pointer `h`. -/
def Store.Unknown (σ : Store) (h : Nat) : Store × Nat :=
  let σ := Function.update σ h (σ h).Unknown
  (σ, h)

/-- The call `h.AddInfo(key, value)` on the pointer `h`. -/
def Store.AddInfo (σ : Store) (h : Nat) (key : String) (value : Value) : Store × Nat :=
  let σ := Function.update σ h ((σ h).AddInfo key value)
  (σ, h)

/-- The call `h.GetInfo(key)` on the `Health` stored at `h`; the receiver is passed by value
and the body assigns nothing. -/
def Store.GetInfo (σ : Store) (h : Nat) (key : String) : Store × Value :=
  (σ, (σ h).GetInfo key)

/-- A call of one of the mutators of `Health`. -/
inductive Mutation where
  | Up
  | Down
  | OutOfService
  | Unknown
  | AddInfo (key : String) (value : Value)

/-- The receiver after the call. -/
def Mutation.apply (m : Mutation) (h : Health) : Health :=
  match m with
  | Mutation.Up => h.Up
  | Mutation.Down => h.Down
  | Mutation.OutOfService => h.OutOfService
  | Mutation.Unknown => h.Unknown
  | Mutation.AddInfo key value => h.AddInfo key value

/-- The receiver after a sequence of calls, made in list order. -/
def Health.mutate (h : Health) (ms : List Mutation) : Health :=
  ms.foldl (fun h m => m.apply h) h

/-! ## checker.go -/

/-- The interface `Checker`. -/
structure Checker where
  Check : Unit → Health

/-- The adapter `CheckerFunc`, with its method `Check`. -/
def CheckerFunc (f : Unit → Health) : Checker :=
  { Check := fun _ => f () }

/-- The struct `checkerItem`. -/
structure checkerItem where
  name : String
  checker : Checker

/-- The struct `CompositeChecker`; a nil slice is the empty list, a nil map is `none`. -/
structure CompositeChecker where
  checkers : List checkerItem
  info : Option (GoMap Value)

/-- The function `NewCompositeChecker`. -/
def NewCompositeChecker : CompositeChecker :=
  { checkers := [], info := none }

/-- The method `CompositeChecker.AddInfo`: the receiver after the call. -/
def CompositeChecker.AddInfo (c : CompositeChecker) (key : String) (value : Value) :
    CompositeChecker :=
  let c : CompositeChecker := if c.info.isNone then { c with info := some [] } else c
  { c with info := c.info.map (fun m => GoMap.set m key value) }

/-- The method `AddChecker`: the receiver after the call. -/
def CompositeChecker.AddChecker (c : CompositeChecker) (name : String) (checker : Checker) :
    CompositeChecker :=
  { c with checkers := c.checkers ++ [{ name := name, checker := checker }] }

/-- One pass of the loop body of `Check` over `item`, on the locals `health` and `healths`. -/
def CompositeChecker.checkStep (acc : Health × GoMap Value) (item : checkerItem) :
    Health × GoMap Value :=
  let health := acc.1
  let healths := acc.2
  let h := item.checker.Check ()
  let health := if !h.IsUp && !health.IsDown then health.Down else health
  let healths := GoMap.set healths item.name (Value.ofHealth h)
  (health, healths)

/-- The loop `for key, value := range c.info { health.AddInfo(key, value) }`. -/
def CompositeChecker.addExtra (health : Health) (info : Option (GoMap Value)) : Health :=
  match info with
  | none => health
  | some m => m.foldl (fun hl e => hl.AddInfo e.1 e.2) health

/-- The method `CompositeChecker.Check`. -/
def CompositeChecker.Check (c : CompositeChecker) : Health :=
  let health := NewHealth
  let health := health.Up
  let healths : GoMap Value := []
  let acc := c.checkers.foldl CompositeChecker.checkStep (health, healths)
  let health := acc.1
  let healths := acc.2
  let health : Health := { health with info := some healths }
  let health := CompositeChecker.addExtra health c.info
  health

/-- A `CompositeChecker` used as a `Checker`. -/
def CompositeChecker.toChecker (c : CompositeChecker) : Checker :=
  { Check := fun _ => c.Check }

/-- A finite tree of checkers: a leaf returns a fixed `Health`, an inner node is a
`CompositeChecker` over its named children with its own extra entries. -/
inductive CheckerTree where
  | leaf (h : Health)
  | composite (children : List (String × CheckerTree)) (info : Option (GoMap Value))

mutual
/-- The checker a tree stands for. -/
def CheckerTree.toChecker : CheckerTree → Checker
  | CheckerTree.leaf h => CheckerFunc (fun _ => h)
  | CheckerTree.composite children info =>
    CompositeChecker.toChecker { checkers := CheckerTree.toItems children, info := info }
/-- The items registered for the children of a node, in order. -/
def CheckerTree.toItems : List (String × CheckerTree) → List checkerItem
  | [] => []
  | (n, t) :: rest => { name := n, checker := CheckerTree.toChecker t } :: CheckerTree.toItems rest
end

mutual
/-- The reports of the leaves of a tree, at every depth. -/
def CheckerTree.leaves : CheckerTree → List Health
  | CheckerTree.leaf h => [h]
  | CheckerTree.composite children _ => CheckerTree.leavesOf children
/-- The reports of the leaves below a list of children. -/
def CheckerTree.leavesOf : List (String × CheckerTree) → List Health
  | [] => []
  | (_, t) :: rest => CheckerTree.leaves t ++ CheckerTree.leavesOf rest
end

/-! ### Maps as references

A Go map is a reference: the structs `Health` and `CompositeChecker` hold the address of
their map, and a copy of the struct shares it.  The definitions below repeat `NewHealth`,
`AddInfo` and `Check` over a memory of maps, to tell which maps a call writes.  The values
stored in a map, the reports of the sub-checkers among them, are kept as the values they
had when stored. -/

/-- The maps made so far: their contents by address; the addresses below `next` are in
use. -/
structure Memory where
  maps : Nat → GoMap Value
  next : Nat

/-- The call `make(map[string]interface{})`: the address of the new map and the memory
afterwards. -/
def Memory.make (μ : Memory) : Nat × Memory :=
  (μ.next, { maps := Function.update μ.maps μ.next [], next := μ.next + 1 })

/-- The assignment `m[k] = v` on the map at address `m`. -/
def Memory.assign (μ : Memory) (m : Nat) (k : String) (v : Value) : Memory :=
  { μ with maps := Function.update μ.maps m (GoMap.set (μ.maps m) k v) }

/-- The contents of the map behind a reference; a nil reference has none. -/
def Memory.read (μ : Memory) (r : Option Nat) : Option (GoMap Value) :=
  r.map μ.maps

/-- The struct `Health` with its map held by reference. -/
structure HealthRef where
  status : status
  info : Option Nat

/-- The struct `CompositeChecker` with its map held by reference. -/
structure CompositeCheckerRef where
  checkers : List checkerItem
  info : Option Nat

/-- The `Health` value a `HealthRef` stands for in a memory. -/
def HealthRef.deref (h : HealthRef) (μ : Memory) : Health :=
  { status := h.status, info := μ.read h.info }

/-- The `CompositeChecker` value a `CompositeCheckerRef` stands for in a memory. -/
def CompositeCheckerRef.deref (c : CompositeCheckerRef) (μ : Memory) : CompositeChecker :=
  { checkers := c.checkers, info := μ.read c.info }

/-- The method `Unknown` on a `HealthRef`. -/
def HealthRef.Unknown (h : HealthRef) : HealthRef :=
  { h with status := unknown }

/-- The method `Up` on a `HealthRef`. -/
def HealthRef.Up (h : HealthRef) : HealthRef :=
  { h with status := up }

/-- The method `Down` on a `HealthRef`. -/
def HealthRef.Down (h : HealthRef) : HealthRef :=
  { h with status := down }

/-- The method `OutOfService` on a `HealthRef`. -/
def HealthRef.OutOfService (h : HealthRef) : HealthRef :=
  { h with status := outOfService }

/-- The method `IsDown` on a `HealthRef`. -/
def HealthRef.IsDown (h : HealthRef) : Bool :=
  h.status == down

/-- The function `NewHealth` over a memory. -/
def NewHealthRef (μ : Memory) : HealthRef × Memory :=
  let made := μ.make
  let h : HealthRef := { status := "", info := some made.1 }
  let h := h.Unknown
  (h, made.2)

/-- The method `AddInfo` over a memory: the receiver and the memory after the call. -/
def HealthRef.AddInfo (h : HealthRef) (μ : Memory) (key : String) (value : Value) :
    HealthRef × Memory :=
  match h.info with
  | none =>
    let made := μ.make
    let h : HealthRef := { h with info := some made.1 }
    (h, made.2.assign made.1 key value)
  | some m => (h, μ.assign m key value)

/-- One pass of the loop body of `Check` over `item`, with `healths` the address of the
local map of that name. -/
def CompositeCheckerRef.checkStep (healths : Nat) (acc : HealthRef × Memory)
    (item : checkerItem) : HealthRef × Memory :=
  let health := acc.1
  let μ := acc.2
  let h := item.checker.Check ()
  let health := if !h.IsUp && !health.IsDown then health.Down else health
  let μ := μ.assign healths item.name (Value.ofHealth h)
  (health, μ)

/-- The loop over `c.info` in `Check`, on the bindings the map has when the loop starts. -/
def CompositeCheckerRef.addExtra (acc : HealthRef × Memory) (info : Option Nat) :
    HealthRef × Memory :=
  match info with
  | none => acc
  | some m => (acc.2.maps m).foldl (fun a e => a.1.AddInfo a.2 e.1 e.2) acc

/-- The method `CompositeChecker.Check` over a memory: the report and the memory after the
call. -/
def CompositeCheckerRef.Check (c : CompositeCheckerRef) (μ : Memory) : HealthRef × Memory :=
  let made := NewHealthRef μ
  let health := made.1
  let μ := made.2
  let health := health.Up
  let made := μ.make
  let healths := made.1
  let μ := made.2
  let acc := c.checkers.foldl (CompositeCheckerRef.checkStep healths) (health, μ)
  let health := acc.1
  let μ := acc.2
  let health : HealthRef := { health with info := some healths }
  CompositeCheckerRef.addExtra (health, μ) c.info

/-! ## handler.go -/

/-- The state of an `http.ResponseWriter`: the header map, the status code once written,
and the documents written to the body. -/
structure ResponseWriter where
  header : List (String × String)
  statusCode : Option Nat
  body : List Json

/-- Constant `http.StatusOK`. -/
def StatusOK : Nat := 200

/-- Constant `http.StatusServiceUnavailable`. -/
def StatusServiceUnavailable : Nat := 503

/-- The call `w.Header().Add(key, value)`. -/
def ResponseWriter.headerAdd (w : ResponseWriter) (key value : String) : ResponseWriter :=
  { w with header := w.header ++ [(key, value)] }

/-- The call `w.WriteHeader(code)`; only the first status written counts. -/
def ResponseWriter.WriteHeader (w : ResponseWriter) (code : Nat) : ResponseWriter :=
  match w.statusCode with
  | none => { w with statusCode := some code }
  | some _ => w

/-- A write to the body; it sends `http.StatusOK` first when no status was written. -/
def ResponseWriter.Write (w : ResponseWriter) (doc : Json) : ResponseWriter :=
  let w := w.WriteHeader StatusOK
  { w with body := w.body ++ [doc] }

/-- The struct `Handler`, which embeds a `CompositeChecker`. -/
structure Handler where
  CompositeChecker : CompositeChecker

/-- The function `NewHandler`. -/
def NewHandler : Handler :=
  { CompositeChecker := { checkers := [], info := none } }

/-- The method `Handler.ServeHTTP`; the request is not read. -/
def Handler.ServeHTTP (h : Handler) (w : ResponseWriter) : ResponseWriter :=
  let w := w.headerAdd "Content-Type" "application/json"
  let health := h.CompositeChecker.Check
  let w := if health.IsDown then w.WriteHeader StatusServiceUnavailable else w
  w.Write health.MarshalJSON

/-! ## main.go

A Go string is its sequence of bytes, so that `r.URL.Path[1:]` drops one byte.  The
environment and the file system are inputs; what `loadFile` prints on the console is left
out. -/

/-- A Go `string`. -/
abbrev GoString := List UInt8

/-- The bytes of a string literal. -/
def lit (s : String) : GoString :=
  s.toUTF8.data.toList

/-- What the process can read: `os.Getenv`, `ioutil.ReadFile` (`none` when it returns an
error) and the library function `path.Join` on two elements. -/
structure World where
  Getenv : GoString → GoString
  ReadFile : GoString → Option GoString
  Join : GoString → GoString → GoString

/-- A page together with the files read to make it. -/
structure Page where
  content : GoString
  filesRead : List GoString

/-- The function `loadFile`. -/
def loadFile (world : World) (filename : GoString) : Page :=
  let dir := if world.Getenv (lit "DATA_DIR") ≠ lit "" then world.Getenv (lit "DATA_DIR")
    else lit "."
  let file := world.Join dir filename
  match world.ReadFile file with
  | none =>
    { content := lit
        "<html><head><title>hello world</title></head><body>hello world!<br><br><i>powered by PKS!</i></body></html>\n",
      filesRead := [file] }
  | some content => { content := content, filesRead := [file] }

/-- The slice expression `s[1:]`; it panics (`none`) when `s` is empty. -/
def sliceFrom1 (s : GoString) : Option GoString :=
  if 1 ≤ s.length then some (s.drop 1) else none

/-- The function `serve` on a request with URL path `path`: the bytes written to `w` and
the files read, or `none` when the slice expression panics. -/
def serve (world : World) (path : GoString) : Option Page :=
  match sliceFrom1 path with
  | none => none
  | some name =>
    let page : Page :=
      if name ≠ lit "" then
        { content := lit "<html><head><title>hello " ++ name ++
            lit "</title></head><body>hello " ++ name ++ lit "!</body></html>\n",
          filesRead := [] }
      else loadFile world (lit "index.html")
    some page

/-- A handler registered by `main`: the health handler or the function `serve`. -/
inductive Registered where
  | handler (h : Handler)
  | handlerFunc (f : World → GoString → Option Page)

/-- The function `main`: the registrations made with `http.Handle` and `http.HandleFunc`
before the server starts, in order, each with its pattern. -/
def main : List (String × Registered) :=
  let healthHandler := NewHandler
  [("/health/", Registered.handler healthHandler), ("/", Registered.handlerFunc serve)]

/-! ## Auxiliary definitions used to state the properties -/

/-- A sub-checker that does not report UP. -/
def notUp (item : checkerItem) : Bool :=
  !(item.checker.Check ()).IsUp

/-- The binding that `Check` writes into `healths` for an item. -/
def reportOf (item : checkerItem) : String × Value :=
  (item.name, Value.ofHealth (item.checker.Check ()))

/-- Registers the items on `c` by successive calls of `AddChecker`, in list order. -/
def CompositeChecker.register (c : CompositeChecker) (items : List checkerItem) :
    CompositeChecker :=
  items.foldl (fun c item => c.AddChecker item.name item.checker) c

/-- A leaf checker that always returns `h`. -/
def fixedChecker (h : Health) : Checker :=
  CheckerFunc (fun _ => h)

/-! ## Scenarios -/

/-- Sub-checker "A": reports UP with the info entry code: 200. -/
def itemA : checkerItem :=
  { name := "A", checker := fixedChecker (NewHealth.Up.AddInfo "code" (Value.int 200)) }

/-- Sub-checker "B": reports DOWN with the info entry error: "timeout". -/
def itemB : checkerItem :=
  { name := "B", checker := fixedChecker (NewHealth.Down.AddInfo "error" (Value.str "timeout")) }

/-- The composite "root" over "A" and "B", without extra entries. -/
def rootAB : CompositeChecker :=
  { checkers := [itemA, itemB], info := none }

/-- Sub-checker "b": reports OUT OF SERVICE. -/
def itemOut : checkerItem :=
  { name := "b", checker := fixedChecker NewHealth.OutOfService }

/-- A composite with "b" registered between two sub-checkers that report UP, and one extra
entry. -/
def betweenUps : CompositeChecker :=
  { checkers := [{ name := "a", checker := fixedChecker NewHealth.Up }, itemOut,
      { name := "c", checker := fixedChecker NewHealth.Up }],
    info := some [("version", Value.int 3)] }

/-- The composite over "A" and "B" whose extra entries are the map at address 0. -/
def refRoot : CompositeCheckerRef :=
  { checkers := [itemA, itemB], info := some 0 }

/-- A memory with one map in use, at address 0, holding version: 3. -/
def refMemory : Memory :=
  { maps := fun a => if a = 0 then [("version", Value.int 3)] else [], next := 1 }

/-! ## Lemmas on maps -/

theorem GoMap.find?_cons {β : Type} (k₀ : String) (v : β) (rest : GoMap β) (k : String) :
    GoMap.find? ((k₀, v) :: rest) k =
      (GoMap.find? rest k).or (if k₀ = k then some v else none) := by
  cases h : GoMap.find? rest k <;> simp [GoMap.find?, h]

theorem GoMap.find?_append {β : Type} (l l' : GoMap β) (k : String) :
    GoMap.find? (l ++ l') k = (GoMap.find? l' k).or (GoMap.find? l k) := by
  induction l with
  | nil => simp [GoMap.find?]
  | cons e rest ih =>
    obtain ⟨k₀, v⟩ := e
    rw [List.cons_append, GoMap.find?_cons, GoMap.find?_cons, ih]
    cases GoMap.find? l' k <;> simp

theorem GoMap.find?_filter {β : Type} (l : GoMap β) (k k' : String) :
    GoMap.find? (l.filter (fun e => decide (e.1 ≠ k))) k' =
      if k' = k then none else GoMap.find? l k' := by
  induction l with
  | nil => simp [GoMap.find?]
  | cons e rest ih =>
    obtain ⟨k₀, v⟩ := e
    by_cases h0 : k₀ = k
    · subst h0
      simp only [List.filter, ne_eq, not_true_eq_false, decide_False, ih, GoMap.find?_cons]
      by_cases hk : k' = k₀
      · simp [hk]
      · have hk2 : ¬ k₀ = k' := fun h => hk h.symm
        simp [hk, hk2]
    · simp only [List.filter, ne_eq, h0, not_false_eq_true, decide_True, GoMap.find?_cons, ih]
      by_cases hk : k' = k
      · subst hk
        simp [h0]
      · simp [hk]

theorem GoMap.find?_set {β : Type} (m : GoMap β) (k : String) (v : β) (k' : String) :
    GoMap.find? (GoMap.set m k v) k' = if k' = k then some v else GoMap.find? m k' := by
  unfold GoMap.set
  rw [GoMap.find?_append, GoMap.find?_filter]
  by_cases hk : k' = k
  · subst hk
    simp [GoMap.find?]
  · have hk2 : ¬ k = k' := fun h => hk h.symm
    simp [GoMap.find?, hk, hk2]

theorem GoMap.mem_keys_set {β : Type} (m : GoMap β) (k : String) (v : β) (k' : String) :
    k' ∈ GoMap.keys (GoMap.set m k v) ↔ k' = k ∨ k' ∈ GoMap.keys m := by
  unfold GoMap.set GoMap.keys
  simp only [List.map_append, List.mem_append, List.mem_map, List.mem_filter, List.map_cons,
    List.map_nil, List.mem_singleton, decide_eq_true_eq]
  constructor
  · rintro (⟨e, ⟨he, _⟩, rfl⟩ | h)
    · exact Or.inr ⟨e, he, rfl⟩
    · exact Or.inl h
  · rintro (h | ⟨e, he, rfl⟩)
    · exact Or.inr h
    · by_cases hk : e.1 = k
      · exact Or.inr hk
      · exact Or.inl ⟨e, ⟨he, hk⟩, rfl⟩

theorem GoMap.find?_isSome_iff {β : Type} (m : GoMap β) (k : String) :
    (GoMap.find? m k).isSome = true ↔ k ∈ GoMap.keys m := by
  induction m with
  | nil => simp [GoMap.find?, GoMap.keys]
  | cons e rest ih =>
    obtain ⟨k₀, v⟩ := e
    have hk : GoMap.keys ((k₀, v) :: rest) = k₀ :: GoMap.keys rest := rfl
    rw [GoMap.find?_cons, hk, List.mem_cons, ← ih]
    by_cases h0 : k₀ = k
    · subst h0
      cases GoMap.find? rest k₀ <;> simp
    · have h1 : ¬ k = k₀ := fun h => h0 h.symm
      cases GoMap.find? rest k <;> simp [h0, h1]

theorem GoMap.find?_eq_none_iff {β : Type} (m : GoMap β) (k : String) :
    GoMap.find? m k = none ↔ k ∉ GoMap.keys m := by
  rw [← GoMap.find?_isSome_iff]
  cases GoMap.find? m k <;> simp

theorem GoMap.find?_copyInto {β : Type} (src dst : GoMap β) (k : String) :
    GoMap.find? (GoMap.copyInto dst (some src)) k = (GoMap.find? src k).or (GoMap.find? dst k) := by
  induction src generalizing dst with
  | nil => simp [GoMap.copyInto, GoMap.find?]
  | cons e rest ih =>
    obtain ⟨k₀, v⟩ := e
    have h := ih (GoMap.set dst k₀ v)
    simp only [GoMap.copyInto, List.foldl_cons] at h ⊢
    rw [h, GoMap.find?_set, GoMap.find?_cons]
    by_cases h0 : k₀ = k
    · subst h0
      cases GoMap.find? rest k₀ <;> simp
    · have h1 : ¬ k = k₀ := fun h => h0 h.symm
      simp [h0, h1]

theorem GoMap.mem_keys_copyInto {β : Type} (src dst : GoMap β) (k : String) :
    k ∈ GoMap.keys (GoMap.copyInto dst (some src)) ↔ k ∈ GoMap.keys src ∨ k ∈ GoMap.keys dst := by
  simp only [← GoMap.find?_isSome_iff, GoMap.find?_copyInto]
  cases GoMap.find? src k <;> simp

theorem GoMap.find?_map {β γ : Type} (f : β → γ) (m : GoMap β) (k : String) :
    GoMap.find? (m.map (fun e => (e.1, f e.2))) k = (GoMap.find? m k).map f := by
  induction m with
  | nil => simp [GoMap.find?]
  | cons e rest ih =>
    obtain ⟨k₀, v⟩ := e
    rw [List.map_cons, GoMap.find?_cons, GoMap.find?_cons, ih]
    by_cases h0 : k₀ = k
    · cases GoMap.find? rest k <;> simp [h0]
    · cases GoMap.find? rest k <;> simp [h0]

theorem GoMap.keys_map {β γ : Type} (f : β → γ) (m : GoMap β) :
    GoMap.keys (m.map (fun e => (e.1, f e.2))) = GoMap.keys m := by
  simp [GoMap.keys, List.map_map, Function.comp_def]

theorem GoMap.map_set {β γ : Type} (f : β → γ) (m : GoMap β) (k : String) (v : β) :
    (GoMap.set m k v).map (fun e => (e.1, f e.2)) =
      GoMap.set (m.map (fun e => (e.1, f e.2))) k (f v) := by
  simp [GoMap.set, List.filter_map, Function.comp_def]

theorem GoMap.map_copyInto {β γ : Type} (f : β → γ) (src : Option (GoMap β)) (dst : GoMap β) :
    (GoMap.copyInto dst src).map (fun e => (e.1, f e.2)) =
      GoMap.copyInto (dst.map (fun e => (e.1, f e.2)))
        (src.map (fun m => m.map (fun e => (e.1, f e.2)))) := by
  cases src with
  | none => rfl
  | some m =>
    induction m generalizing dst with
    | nil => rfl
    | cons e rest ih =>
      have h := ih (GoMap.set dst e.1 e.2)
      simp only [GoMap.copyInto, Option.map_some', List.foldl_cons, List.map_cons] at h ⊢
      rw [h, GoMap.map_set]

/-! ## Lemmas on `Health` -/

theorem Health.Down_of_IsDown (h : Health) (hd : h.IsDown = true) : h.Down = h := by
  cases h with
  | mk st inf =>
    simp only [Health.IsDown, beq_iff_eq] at hd
    simp only [Health.Down]
    rw [← hd]

theorem Health.AddInfo_status (h : Health) (key : String) (value : Value) :
    (h.AddInfo key value).status = h.status := by
  cases h with
  | mk st inf => cases inf <;> rfl

theorem Health.AddInfo_info (h : Health) (key : String) (value : Value) :
    (h.AddInfo key value).info = some (GoMap.set (h.info.getD []) key value) := by
  cases h with
  | mk st inf => cases inf <;> rfl

/-! ## Lemmas on `CompositeChecker.Check` -/

theorem CompositeChecker.foldl_checkStep_fst (items : List checkerItem)
    (acc : Health × GoMap Value) :
    (items.foldl CompositeChecker.checkStep acc).1 =
      if items.any notUp then acc.1.Down else acc.1 := by
  induction items generalizing acc with
  | nil => rfl
  | cons item rest ih =>
    rw [List.foldl_cons, ih, List.any_cons]
    by_cases hu : (item.checker.Check ()).IsUp = true
    · have h1 : (CompositeChecker.checkStep acc item).1 = acc.1 := by
        simp [CompositeChecker.checkStep, hu]
      simp [h1, notUp, hu]
    · by_cases hd : acc.1.IsDown = true
      · have h1 : (CompositeChecker.checkStep acc item).1 = acc.1 := by
          simp [CompositeChecker.checkStep, hd]
        simp [h1, notUp, hu, Health.Down_of_IsDown _ hd]
      · have h1 : (CompositeChecker.checkStep acc item).1 = acc.1.Down := by
          simp [CompositeChecker.checkStep, hu, hd]
        have h2 : acc.1.Down.Down = acc.1.Down := rfl
        simp [h1, notUp, hu, h2]

theorem CompositeChecker.foldl_checkStep_snd (items : List checkerItem)
    (acc : Health × GoMap Value) :
    (items.foldl CompositeChecker.checkStep acc).2 =
      GoMap.copyInto acc.2 (some (items.map reportOf)) := by
  induction items generalizing acc with
  | nil => rfl
  | cons item rest ih =>
    rw [List.foldl_cons, ih]
    rfl

theorem CompositeChecker.addExtra_status (h : Health) (inf : Option (GoMap Value)) :
    (CompositeChecker.addExtra h inf).status = h.status := by
  cases inf with
  | none => rfl
  | some m =>
    induction m generalizing h with
    | nil => rfl
    | cons e rest ih =>
      have h1 := ih (h.AddInfo e.1 e.2)
      simp only [CompositeChecker.addExtra, List.foldl_cons] at h1 ⊢
      rw [h1, Health.AddInfo_status]

theorem CompositeChecker.addExtra_info (h : Health) (m : GoMap Value)
    (inf : Option (GoMap Value)) (hm : h.info = some m) :
    (CompositeChecker.addExtra h inf).info = some (GoMap.copyInto m inf) := by
  cases inf with
  | none => exact hm
  | some src =>
    induction src generalizing h m with
    | nil => exact hm
    | cons e rest ih =>
      have h1 := ih (h.AddInfo e.1 e.2) (GoMap.set m e.1 e.2)
        (by rw [Health.AddInfo_info, hm]; rfl)
      simp only [CompositeChecker.addExtra, GoMap.copyInto, List.foldl_cons] at h1 ⊢
      exact h1

theorem CompositeChecker.Check_status (c : CompositeChecker) :
    c.Check.status = if c.checkers.any notUp then down else up := by
  simp only [CompositeChecker.Check, CompositeChecker.addExtra_status,
    CompositeChecker.foldl_checkStep_fst]
  split <;> rfl

theorem CompositeChecker.Check_info (c : CompositeChecker) :
    c.Check.info =
      some (GoMap.copyInto (GoMap.copyInto [] (some (c.checkers.map reportOf))) c.info) := by
  simp only [CompositeChecker.Check]
  rw [CompositeChecker.addExtra_info _ _ _ rfl, CompositeChecker.foldl_checkStep_snd]

/-! ## Lemmas on registration and on the aggregate status -/

theorem CompositeChecker.register_checkers (items : List checkerItem) (c : CompositeChecker) :
    (c.register items).checkers = c.checkers ++ items := by
  induction items generalizing c with
  | nil => simp [CompositeChecker.register]
  | cons item rest ih =>
    have h := ih (c.AddChecker item.name item.checker)
    simp only [CompositeChecker.register, List.foldl_cons] at h ⊢
    rw [h]
    simp [CompositeChecker.AddChecker]

theorem CompositeChecker.any_notUp_iff (items : List checkerItem) :
    items.any notUp = true ↔ ∃ item ∈ items, (item.checker.Check ()).IsUp = false := by
  simp [List.any_eq_true, notUp]

theorem CompositeChecker.any_notUp_perm {l l' : List checkerItem} (hp : l.Perm l') :
    l.any notUp = l'.any notUp := by
  have h : l.any notUp = true ↔ l'.any notUp = true := by
    simp only [List.any_eq_true]
    exact ⟨fun ⟨x, hx, hn⟩ => ⟨x, hp.mem_iff.mp hx, hn⟩, fun ⟨x, hx, hn⟩ => ⟨x, hp.mem_iff.mpr hx, hn⟩⟩
  cases h1 : l.any notUp <;> cases h2 : l'.any notUp <;> simp_all

/-! ## Lemmas on trees of checkers -/

theorem GoMap.find?_copyInto_opt {β : Type} (src : Option (GoMap β)) (dst : GoMap β)
    (k : String) :
    GoMap.find? (GoMap.copyInto dst src) k =
      (GoMap.find? (src.getD []) k).or (GoMap.find? dst k) := by
  cases src with
  | none => simp [GoMap.copyInto, GoMap.find?]
  | some m => exact GoMap.find?_copyInto m dst k

theorem GoMap.find?_of_not_mem_keys {β : Type} (m : GoMap β) (k : String)
    (h : k ∉ GoMap.keys m) : GoMap.find? m k = none :=
  (GoMap.find?_eq_none_iff m k).mpr h

theorem CompositeChecker.GetInfo_Check (c : CompositeChecker) (k : String) :
    c.Check.GetInfo k =
      (((GoMap.find? (c.info.getD []) k).or
        (GoMap.find? (c.checkers.map reportOf) k))).getD Value.nil := by
  simp only [Health.GetInfo, CompositeChecker.Check_info, GoMap.find?_copyInto_opt,
    Option.getD_some]
  simp [GoMap.find?]

theorem CheckerTree.map_reportOf_toItems (cs : List (String × CheckerTree)) :
    (CheckerTree.toItems cs).map reportOf =
      cs.map (fun p => (p.1, Value.ofHealth (p.2.toChecker.Check ()))) := by
  induction cs with
  | nil => simp [CheckerTree.toItems]
  | cons p rest ih =>
    obtain ⟨n, t⟩ := p
    simp [CheckerTree.toItems, ih, reportOf]

mutual
theorem CheckerTree.isUp_check (t : CheckerTree) :
    (t.toChecker.Check ()).IsUp = !(t.leaves.any (fun h => !h.IsUp)) := by
  cases t with
  | leaf h => simp [CheckerTree.toChecker, CheckerTree.leaves, CheckerFunc]
  | composite children inf =>
    have hq := CheckerTree.any_notUp_toItems children
    have hs : ((CheckerTree.composite children inf).toChecker.Check ()).status =
        if (CheckerTree.leavesOf children).any (fun h => !h.IsUp) then down else up := by
      simp only [CheckerTree.toChecker, CompositeChecker.toChecker,
        CompositeChecker.Check_status, hq]
    rw [CheckerTree.leaves]
    generalize (CheckerTree.leavesOf children).any (fun h => !h.IsUp) = b at hs
    generalize (CheckerTree.composite children inf).toChecker.Check () = r at hs
    cases b <;> simp [Health.IsUp, hs, up, down]
theorem CheckerTree.any_notUp_toItems (cs : List (String × CheckerTree)) :
    (CheckerTree.toItems cs).any notUp = (CheckerTree.leavesOf cs).any (fun h => !h.IsUp) := by
  cases cs with
  | nil => simp [CheckerTree.toItems, CheckerTree.leavesOf]
  | cons p rest =>
    obtain ⟨n, t⟩ := p
    have h1 := CheckerTree.isUp_check t
    have h2 := CheckerTree.any_notUp_toItems rest
    simp only [CheckerTree.toItems, CheckerTree.leavesOf, List.any_cons, List.any_append, notUp,
      h1, h2, Bool.not_not]
end

theorem CheckerTree.status_composite (children : List (String × CheckerTree))
    (inf : Option (GoMap Value)) :
    ((CheckerTree.composite children inf).toChecker.Check ()).status =
      if (CheckerTree.leavesOf children).any (fun h => !h.IsUp) then down else up := by
  simp only [CheckerTree.toChecker, CompositeChecker.toChecker, CompositeChecker.Check_status,
    CheckerTree.any_notUp_toItems]

theorem CheckerTree.status_down_iff (children : List (String × CheckerTree))
    (inf : Option (GoMap Value)) :
    ((CheckerTree.composite children inf).toChecker.Check ()).status = down ↔
      ∃ h ∈ (CheckerTree.composite children inf).leaves, h.IsUp = false := by
  rw [CheckerTree.status_composite, CheckerTree.leaves]
  cases hb : (CheckerTree.leavesOf children).any (fun h => !h.IsUp) with
  | true =>
    simp only [List.any_eq_true, Bool.not_eq_eq_eq_not, Bool.not_true] at hb
    simp [hb]
  | false =>
    have hn : ¬ ∃ h ∈ CheckerTree.leavesOf children, h.IsUp = false := by
      rintro ⟨h, hm, hf⟩
      have : (CheckerTree.leavesOf children).any (fun h => !h.IsUp) = true :=
        List.any_eq_true.mpr ⟨h, hm, by simp [hf]⟩
      rw [hb] at this
      cases this
    simp only [Bool.false_eq_true, if_false, hn, iff_false]
    decide

theorem CheckerTree.status_up_iff (children : List (String × CheckerTree))
    (inf : Option (GoMap Value)) :
    ((CheckerTree.composite children inf).toChecker.Check ()).status = up ↔
      ∀ h ∈ (CheckerTree.composite children inf).leaves, h.IsUp = true := by
  rw [CheckerTree.status_composite, CheckerTree.leaves]
  cases hb : (CheckerTree.leavesOf children).any (fun h => !h.IsUp) with
  | true =>
    obtain ⟨h, hm, hf⟩ := List.any_eq_true.mp hb
    have hn : ¬ ∀ h ∈ CheckerTree.leavesOf children, h.IsUp = true := by
      intro hall
      simp [hall h hm] at hf
    simp only [if_true, hn, iff_false]
    decide
  | false =>
    have hall : ∀ h ∈ CheckerTree.leavesOf children, h.IsUp = true := by
      intro h hm
      cases hu : h.IsUp with
      | true => rfl
      | false =>
        have : (CheckerTree.leavesOf children).any (fun h => !h.IsUp) = true :=
          List.any_eq_true.mpr ⟨h, hm, by simp [hu]⟩
        rw [hb] at this
        cases this
    simp only [Bool.false_eq_true, if_false, true_iff]
    exact hall

theorem CheckerTree.GetInfo_child (pre post : List (String × CheckerTree)) (n : String)
    (t : CheckerTree) (inf : Option (GoMap Value))
    (hpost : n ∉ post.map Prod.fst) (hinf : n ∉ GoMap.keys (inf.getD [])) :
    ((CheckerTree.composite (pre ++ (n, t) :: post) inf).toChecker.Check ()).GetInfo n =
      Value.ofHealth (t.toChecker.Check ()) := by
  simp only [CheckerTree.toChecker, CompositeChecker.toChecker, CompositeChecker.GetInfo_Check,
    CheckerTree.map_reportOf_toItems, GoMap.find?_of_not_mem_keys _ _ hinf, List.map_append,
    List.map_cons, GoMap.find?_append, GoMap.find?_cons]
  have hp : GoMap.find? (post.map (fun p => (p.1, Value.ofHealth (p.2.toChecker.Check ())))) n
      = none := by
    apply GoMap.find?_of_not_mem_keys
    simpa [GoMap.keys, Function.comp_def] using hpost
  simp [hp]

/-! ## Lemmas on serialization -/

theorem entriesToJson_eq_map (m : List (String × Value)) :
    entriesToJson m = m.map (fun e => (e.1, Value.toJson e.2)) := by
  induction m with
  | nil => rfl
  | cons e rest ih =>
    obtain ⟨k, v⟩ := e
    simp [entriesToJson, ih]

theorem infoToJson_eq_map (inf : Option (List (String × Value))) :
    infoToJson inf = inf.map (fun m => m.map (fun e => (e.1, Value.toJson e.2))) := by
  cases inf with
  | none => rfl
  | some m => simp [infoToJson, entriesToJson_eq_map]

/-- Encoding a stored `Health` is calling its `MarshalJSON`. -/
theorem toJson_ofHealth (h : Health) : Value.toJson (Value.ofHealth h) = h.MarshalJSON := by
  simp only [Value.ofHealth, Value.toJson, Health.MarshalJSON, jsonMarshal, Health.marshalData,
    GoMap.map_set, GoMap.map_copyInto, infoToJson_eq_map, List.map_nil]

theorem Health.find?_marshalData (h : Health) (k : String) :
    GoMap.find? h.marshalData k =
      if k = "status" then some (Value.str h.status) else GoMap.find? (h.info.getD []) k := by
  simp only [Health.marshalData, GoMap.find?_set, GoMap.find?_copyInto_opt]
  split
  · rfl
  · simp [GoMap.find?]

theorem Health.member?_MarshalJSON (h : Health) (k : String) :
    h.MarshalJSON.member? k =
      if k = "status" then some (Json.str h.status)
      else (GoMap.find? (h.info.getD []) k).map Value.toJson := by
  simp only [Health.MarshalJSON, jsonMarshal, Json.member?, GoMap.find?_map,
    Health.find?_marshalData]
  split
  · simp [Value.toJson]
  · rfl

theorem Health.mem_keys_marshalData (h : Health) (k : String) :
    k ∈ GoMap.keys h.marshalData ↔ k = "status" ∨ k ∈ GoMap.keys (h.info.getD []) := by
  simp only [← GoMap.find?_isSome_iff, Health.find?_marshalData]
  split <;> simp_all

theorem GoMap.keys_set {β : Type} (m : GoMap β) (k : String) (v : β) :
    GoMap.keys (GoMap.set m k v) = (GoMap.keys m).filter (fun x => decide (x ≠ k)) ++ [k] := by
  simp [GoMap.keys, GoMap.set, List.filter_map, Function.comp_def]

theorem GoMap.nodup_keys_set {β : Type} (m : GoMap β) (k : String) (v : β)
    (h : (GoMap.keys m).Nodup) : (GoMap.keys (GoMap.set m k v)).Nodup := by
  rw [GoMap.keys_set]
  refine List.Nodup.append (h.filter _) (List.nodup_singleton k) ?_
  intro x hx hk
  rw [List.mem_singleton] at hk
  subst hk
  simp at hx

theorem GoMap.nodup_keys_copyInto {β : Type} (src : Option (GoMap β)) (dst : GoMap β)
    (h : (GoMap.keys dst).Nodup) : (GoMap.keys (GoMap.copyInto dst src)).Nodup := by
  cases src with
  | none => exact h
  | some m =>
    induction m generalizing dst with
    | nil => exact h
    | cons e rest ih => exact ih (GoMap.set dst e.1 e.2) (GoMap.nodup_keys_set dst e.1 e.2 h)

theorem Health.nodup_keys_marshalData (h : Health) : (GoMap.keys h.marshalData).Nodup :=
  GoMap.nodup_keys_set _ _ _ (GoMap.nodup_keys_copyInto _ _ List.nodup_nil)

theorem Health.keys_MarshalJSON (h : Health) : h.MarshalJSON.keys = GoMap.keys h.marshalData := by
  simp only [Health.MarshalJSON, jsonMarshal, Json.keys, GoMap.keys_map]

theorem Health.GetInfo_eq (h : Health) (k : String) :
    h.GetInfo k = (GoMap.find? (h.info.getD []) k).getD Value.nil := by
  cases h with
  | mk st inf => cases inf <;> simp [Health.GetInfo, GoMap.find?]

theorem GoMap.find?_of_mem_of_nodup {β : Type} (m : GoMap β) (k : String) (v : β)
    (hnd : (GoMap.keys m).Nodup) (hm : (k, v) ∈ m) : GoMap.find? m k = some v := by
  induction m with
  | nil => cases hm
  | cons e rest ih =>
    obtain ⟨k₀, v₀⟩ := e
    have hk : GoMap.keys ((k₀, v₀) :: rest) = k₀ :: GoMap.keys rest := rfl
    rw [hk, List.nodup_cons] at hnd
    rw [GoMap.find?_cons]
    rcases List.mem_cons.mp hm with heq | hin
    · injection heq with h1 h2
      subst h1 h2
      rw [GoMap.find?_of_not_mem_keys rest k hnd.1]
      simp
    · rw [ih hnd.2 hin]
      simp

theorem CompositeChecker.find?_Check (c : CompositeChecker) (k : String) :
    GoMap.find? (c.Check.info.getD []) k =
      (GoMap.find? (c.info.getD []) k).or (GoMap.find? (c.checkers.map reportOf) k) := by
  simp only [CompositeChecker.Check_info, GoMap.find?_copyInto_opt, Option.getD_some]
  simp [GoMap.find?]

theorem CompositeChecker.find?_Check_item (c : CompositeChecker) (item : checkerItem)
    (hnd : (c.checkers.map (fun i => i.name)).Nodup) (hm : item ∈ c.checkers)
    (hinf : item.name ∉ GoMap.keys (c.info.getD [])) :
    GoMap.find? (c.Check.info.getD []) item.name =
      some (Value.ofHealth (item.checker.Check ())) := by
  rw [CompositeChecker.find?_Check, GoMap.find?_of_not_mem_keys _ _ hinf]
  have hk : GoMap.keys (c.checkers.map reportOf) = c.checkers.map (fun i => i.name) := by
    simp [GoMap.keys, reportOf, Function.comp_def]
  have hmem : (item.name, Value.ofHealth (item.checker.Check ())) ∈ c.checkers.map reportOf :=
    List.mem_map.mpr ⟨item, hm, rfl⟩
  rw [GoMap.find?_of_mem_of_nodup _ _ _ (hk ▸ hnd) hmem]
  rfl

/-! ## Lemmas on the handler -/

theorem CompositeChecker.IsDown_Check (c : CompositeChecker) :
    c.Check.IsDown = c.checkers.any notUp := by
  simp only [Health.IsDown, CompositeChecker.Check_status]
  cases c.checkers.any notUp <;> simp [up, down]

theorem Handler.ServeHTTP_statusCode (h : Handler) (w : ResponseWriter)
    (hw : w.statusCode = none) :
    (h.ServeHTTP w).statusCode =
      some (if h.CompositeChecker.Check.IsDown then StatusServiceUnavailable else StatusOK) := by
  cases hd : h.CompositeChecker.Check.IsDown <;>
    simp [Handler.ServeHTTP, hd, ResponseWriter.Write, ResponseWriter.WriteHeader,
      ResponseWriter.headerAdd, hw]

theorem Handler.ServeHTTP_body (h : Handler) (w : ResponseWriter) :
    (h.ServeHTTP w).body = w.body ++ [h.CompositeChecker.Check.MarshalJSON] := by
  cases hd : h.CompositeChecker.Check.IsDown <;> cases hw : w.statusCode <;>
    simp [Handler.ServeHTTP, hd, ResponseWriter.Write, ResponseWriter.WriteHeader,
      ResponseWriter.headerAdd, hw]

/-! ## Lemmas on `AddInfo`, `GetInfo` and the mutators -/

theorem Health.GetInfo_AddInfo (h : Health) (k : String) (v : Value) (k' : String) :
    (h.AddInfo k v).GetInfo k' = if k' = k then v else h.GetInfo k' := by
  rw [Health.GetInfo_eq, Health.GetInfo_eq, Health.AddInfo_info, Option.getD_some,
    GoMap.find?_set]
  split <;> rfl

theorem GoMap.count_keys_set {β : Type} (m : GoMap β) (k : String) (v : β) :
    (GoMap.keys (GoMap.set m k v)).count k = 1 := by
  rw [GoMap.keys_set, List.count_append]
  have h0 : ((GoMap.keys m).filter (fun x => decide (x ≠ k))).count k = 0 := by
    apply List.count_eq_zero_of_not_mem
    simp
  rw [h0]
  simp

theorem Health.mutate_cons (h : Health) (m : Mutation) (ms : List Mutation) :
    h.mutate (m :: ms) = (m.apply h).mutate ms := rfl

theorem Mutation.apply_inv (m : Mutation) (h : Health)
    (hs : h.status = up ∨ h.status = down ∨ h.status = outOfService ∨ h.status = unknown)
    (hi : h.info.isSome = true) :
    ((m.apply h).status = up ∨ (m.apply h).status = down ∨
      (m.apply h).status = outOfService ∨ (m.apply h).status = unknown) ∧
    (m.apply h).info.isSome = true := by
  cases m with
  | Up => exact ⟨Or.inl rfl, hi⟩
  | Down => exact ⟨Or.inr (Or.inl rfl), hi⟩
  | OutOfService => exact ⟨Or.inr (Or.inr (Or.inl rfl)), hi⟩
  | Unknown => exact ⟨Or.inr (Or.inr (Or.inr rfl)), hi⟩
  | AddInfo key value =>
    refine ⟨?_, ?_⟩
    · simpa [Mutation.apply, Health.AddInfo_status] using hs
    · simp [Mutation.apply, Health.AddInfo_info]

theorem Health.mutate_inv (ms : List Mutation) (h : Health)
    (hs : h.status = up ∨ h.status = down ∨ h.status = outOfService ∨ h.status = unknown)
    (hi : h.info.isSome = true) :
    ((h.mutate ms).status = up ∨ (h.mutate ms).status = down ∨
      (h.mutate ms).status = outOfService ∨ (h.mutate ms).status = unknown) ∧
    (h.mutate ms).info.isSome = true := by
  induction ms generalizing h with
  | nil => exact ⟨hs, hi⟩
  | cons m rest ih =>
    rw [Health.mutate_cons]
    exact ih (m.apply h) (Mutation.apply_inv m h hs hi).1 (Mutation.apply_inv m h hs hi).2

/-- With a status among the four constants exactly one of the four predicates holds. -/
theorem Health.exactly_one (h : Health)
    (hs : h.status = up ∨ h.status = down ∨ h.status = outOfService ∨ h.status = unknown) :
    (h.IsUp = true ∧ h.IsDown = false ∧ h.IsOutOfService = false ∧ h.IsUnknown = false) ∨
    (h.IsUp = false ∧ h.IsDown = true ∧ h.IsOutOfService = false ∧ h.IsUnknown = false) ∨
    (h.IsUp = false ∧ h.IsDown = false ∧ h.IsOutOfService = true ∧ h.IsUnknown = false) ∨
    (h.IsUp = false ∧ h.IsDown = false ∧ h.IsOutOfService = false ∧ h.IsUnknown = true) := by
  rcases hs with hs | hs | hs | hs
  · exact Or.inl (by simp [Health.IsUp, Health.IsDown, Health.IsOutOfService,
      Health.IsUnknown, hs, up, down, outOfService, unknown])
  · exact Or.inr (Or.inl (by simp [Health.IsUp, Health.IsDown, Health.IsOutOfService,
      Health.IsUnknown, hs, up, down, outOfService, unknown]))
  · exact Or.inr (Or.inr (Or.inl (by simp [Health.IsUp, Health.IsDown, Health.IsOutOfService,
      Health.IsUnknown, hs, up, down, outOfService, unknown])))
  · exact Or.inr (Or.inr (Or.inr (by simp [Health.IsUp, Health.IsDown, Health.IsOutOfService,
      Health.IsUnknown, hs, up, down, outOfService, unknown])))

theorem CompositeChecker.Check_status_cases (c : CompositeChecker) :
    c.Check.status = up ∨ c.Check.status = down := by
  rw [CompositeChecker.Check_status]
  cases c.checkers.any notUp
  · exact Or.inl rfl
  · exact Or.inr rfl

theorem CompositeChecker.mem_keys_Check (c : CompositeChecker) (k : String) :
    k ∈ GoMap.keys (c.Check.info.getD []) ↔
      k ∈ c.checkers.map (fun i => i.name) ∨ k ∈ GoMap.keys (c.info.getD []) := by
  rw [← GoMap.find?_isSome_iff, CompositeChecker.find?_Check]
  have hk : GoMap.keys (c.checkers.map reportOf) = c.checkers.map (fun i => i.name) := by
    simp [GoMap.keys, reportOf, Function.comp_def]
  rw [← hk, ← GoMap.find?_isSome_iff, ← GoMap.find?_isSome_iff]
  cases GoMap.find? (c.info.getD []) k <;> cases GoMap.find? (c.checkers.map reportOf) k <;> simp

theorem CompositeChecker.GetInfo_of_extra (c : CompositeChecker) (k : String) (v : Value)
    (hv : GoMap.find? (c.info.getD []) k = some v) : c.Check.GetInfo k = v := by
  rw [CompositeChecker.GetInfo_Check, hv]
  rfl

theorem CompositeChecker.extra_after_AddInfo (c : CompositeChecker) (k : String) (v : Value) :
    (c.AddInfo k v).info = some (GoMap.set (c.info.getD []) k v) := by
  cases c with
  | mk cs inf => cases inf <;> rfl

theorem CompositeChecker.GetInfo_last (pre post : List checkerItem) (item : checkerItem)
    (inf : Option (GoMap Value))
    (hpost : ∀ later ∈ post, later.name ≠ item.name)
    (hinf : item.name ∉ GoMap.keys (inf.getD [])) :
    (CompositeChecker.Check { checkers := pre ++ item :: post, info := inf }).GetInfo item.name =
      Value.ofHealth (item.checker.Check ()) := by
  rw [CompositeChecker.GetInfo_Check]
  simp only [GoMap.find?_of_not_mem_keys _ _ hinf, List.map_append, List.map_cons,
    GoMap.find?_append]
  have h1 : reportOf item = (item.name, Value.ofHealth (item.checker.Check ())) := rfl
  rw [h1, GoMap.find?_cons]
  have hp : GoMap.find? (post.map reportOf) item.name = none := by
    apply GoMap.find?_of_not_mem_keys
    simp only [GoMap.keys, List.map_map, List.mem_map, Function.comp_apply, not_exists, not_and]
    intro later hl
    exact hpost later hl
  simp [hp]

/-! ## Lemmas on `serve` -/

theorem sliceFrom1_cons (b : UInt8) (rest : GoString) : sliceFrom1 (b :: rest) = some rest := by
  simp [sliceFrom1]

theorem serve_cons (world : World) (b : UInt8) (rest : GoString) :
    serve world (b :: rest) =
      some (if rest ≠ lit "" then
          { content := lit "<html><head><title>hello " ++ rest ++
              lit "</title></head><body>hello " ++ rest ++ lit "!</body></html>\n",
            filesRead := [] }
        else loadFile world (lit "index.html")) := by
  simp only [serve, sliceFrom1_cons]

theorem loadFile_filesRead (world : World) (filename : GoString) :
    (loadFile world filename).filesRead ≠ [] := by
  simp only [loadFile]
  split <;> simp

/-! ## Lemmas on maps held by reference -/

theorem Health.eq_of_fields (h₁ h₂ : Health) (hs : h₁.status = h₂.status)
    (hi : h₁.info = h₂.info) : h₁ = h₂ := by
  cases h₁
  cases h₂
  simp only [Health.mk.injEq]
  exact ⟨hs, hi⟩

theorem HealthRef.Down_when_down (h : HealthRef) (hd : h.IsDown = true) : h.Down = h := by
  cases h with
  | mk st inf =>
    simp only [HealthRef.IsDown, beq_iff_eq] at hd
    simp only [HealthRef.Down]
    rw [← hd]

theorem CompositeCheckerRef.foldl_checkStep (a : Nat) (items : List checkerItem)
    (hr : HealthRef) (μ : Memory) :
    items.foldl (CompositeCheckerRef.checkStep a) (hr, μ) =
      (if items.any notUp then hr.Down else hr,
        { maps := Function.update μ.maps a
            (GoMap.copyInto (μ.maps a) (some (items.map reportOf))),
          next := μ.next }) := by
  induction items generalizing hr μ with
  | nil => simp [GoMap.copyInto]
  | cons item rest ih =>
    have hstep : CompositeCheckerRef.checkStep a (hr, μ) item =
        (if !(item.checker.Check ()).IsUp && !hr.IsDown then hr.Down else hr,
          μ.assign a item.name (Value.ofHealth (item.checker.Check ()))) := rfl
    rw [List.foldl_cons, hstep, ih, List.any_cons]
    refine Prod.ext ?_ ?_
    · by_cases hu : (item.checker.Check ()).IsUp = true
      · simp [notUp, hu]
      · by_cases hd : hr.IsDown = true
        · simp [notUp, hu, hd, HealthRef.Down_when_down _ hd]
        · have h2 : hr.Down.Down = hr.Down := rfl
          simp [notUp, hu, hd, h2]
    · simp [Memory.assign, GoMap.copyInto, reportOf]

theorem HealthRef.foldl_AddInfo (l : GoMap Value) (hr : HealthRef) (μ : Memory) (a : Nat)
    (ha : hr.info = some a) :
    l.foldl (fun acc e => acc.1.AddInfo acc.2 e.1 e.2) (hr, μ) =
      (hr, { maps := Function.update μ.maps a (GoMap.copyInto (μ.maps a) (some l)),
             next := μ.next }) := by
  induction l generalizing μ with
  | nil => simp [GoMap.copyInto]
  | cons e rest ih =>
    have hstep : hr.AddInfo μ e.1 e.2 = (hr, μ.assign a e.1 e.2) := by
      simp [HealthRef.AddInfo, ha]
    rw [List.foldl_cons, hstep, ih]
    simp [Memory.assign, GoMap.copyInto]

/-- The memory in `Check` when the loop over the sub-checkers is done. -/
theorem CompositeCheckerRef.Check_unfold (c : CompositeCheckerRef) (μ : Memory) :
    c.Check μ =
      CompositeCheckerRef.addExtra
        ({ status := if c.checkers.any notUp then down else up, info := some (μ.next + 1) },
          { maps := Function.update (Function.update μ.maps μ.next []) (μ.next + 1)
              (GoMap.copyInto [] (some (c.checkers.map reportOf))),
            next := μ.next + 2 })
        c.info := by
  simp only [CompositeCheckerRef.Check, NewHealthRef, Memory.make,
    CompositeCheckerRef.foldl_checkStep, Function.update_same, Function.update_idem]
  congr 2
  cases c.checkers.any notUp <;> rfl

theorem CompositeCheckerRef.addExtra_eq (hr : HealthRef) (μ : Memory) (a : Nat)
    (inf : Option Nat) (ha : hr.info = some a) :
    CompositeCheckerRef.addExtra (hr, μ) inf =
      (hr, { maps := Function.update μ.maps a (GoMap.copyInto (μ.maps a) (μ.read inf)),
             next := μ.next }) := by
  cases inf with
  | none => simp [CompositeCheckerRef.addExtra, Memory.read, GoMap.copyInto]
  | some b =>
    simp only [CompositeCheckerRef.addExtra, Memory.read, Option.map_some']
    exact HealthRef.foldl_AddInfo _ hr μ a ha

theorem CompositeCheckerRef.Check_fst (c : CompositeCheckerRef) (μ : Memory) :
    (c.Check μ).1 =
      { status := if c.checkers.any notUp then down else up, info := some (μ.next + 1) } := by
  rw [CompositeCheckerRef.Check_unfold, CompositeCheckerRef.addExtra_eq _ _ (μ.next + 1) _ rfl]

theorem CompositeCheckerRef.Check_next (c : CompositeCheckerRef) (μ : Memory) :
    (c.Check μ).2.next = μ.next + 2 := by
  rw [CompositeCheckerRef.Check_unfold, CompositeCheckerRef.addExtra_eq _ _ (μ.next + 1) _ rfl]

theorem CompositeCheckerRef.Check_frame (c : CompositeCheckerRef) (μ : Memory) (a : Nat)
    (ha : a < μ.next) : (c.Check μ).2.maps a = μ.maps a := by
  rw [CompositeCheckerRef.Check_unfold, CompositeCheckerRef.addExtra_eq _ _ (μ.next + 1) _ rfl]
  have h1 : a ≠ μ.next + 1 := by omega
  have h2 : a ≠ μ.next := by omega
  simp [Function.update_noteq h1, Function.update_noteq h2]

theorem CompositeCheckerRef.Check_report (c : CompositeCheckerRef) (μ : Memory)
    (hc : ∀ b, c.info = some b → b < μ.next) :
    (c.Check μ).2.maps (μ.next + 1) =
      GoMap.copyInto (GoMap.copyInto [] (some (c.checkers.map reportOf))) (μ.read c.info) := by
  rw [CompositeCheckerRef.Check_unfold, CompositeCheckerRef.addExtra_eq _ _ (μ.next + 1) _ rfl]
  simp only [Function.update_same]
  congr 1
  cases hi : c.info with
  | none => rfl
  | some b =>
    have hb := hc b hi
    have h1 : b ≠ μ.next + 1 := by omega
    have h2 : b ≠ μ.next := by omega
    simp [Memory.read, Function.update_noteq h1, Function.update_noteq h2]

theorem CompositeCheckerRef.deref_frame (c : CompositeCheckerRef) (μ μ' : Memory)
    (hc : ∀ b, c.info = some b → b < μ.next)
    (hf : ∀ a, a < μ.next → μ'.maps a = μ.maps a) : c.deref μ' = c.deref μ := by
  cases hi : c.info with
  | none => simp [CompositeCheckerRef.deref, Memory.read, hi]
  | some b => simp [CompositeCheckerRef.deref, Memory.read, hi, hf b (hc b hi)]

/-- The report made over the memory is the report of the value-level `Check`. -/
theorem CompositeCheckerRef.deref_Check (c : CompositeCheckerRef) (μ : Memory)
    (hc : ∀ b, c.info = some b → b < μ.next) :
    (c.Check μ).1.deref (c.Check μ).2 = (c.deref μ).Check := by
  apply Health.eq_of_fields
  · rw [CompositeChecker.Check_status]
    simp [HealthRef.deref, CompositeCheckerRef.Check_fst, CompositeCheckerRef.deref]
  · rw [CompositeChecker.Check_info]
    simp only [HealthRef.deref, CompositeCheckerRef.Check_fst, Memory.read, Option.map_some',
      CompositeCheckerRef.Check_report c μ hc, CompositeCheckerRef.deref]

theorem HealthRef.AddInfo_of_info (hr : HealthRef) (μ : Memory) (a : Nat) (key : String)
    (value : Value) (ha : hr.info = some a) :
    hr.AddInfo μ key value = (hr, μ.assign a key value) := by
  simp [HealthRef.AddInfo, ha]

/-! ## The claims -/

/-- C1: when a registered sub-checker, at any position of the list, returns a report whose
status is not UP, `CompositeChecker.Check` returns a report whose status is exactly DOWN:
`IsDown` holds and the other three predicates do not, whatever the sub-checker's own status
is and whatever the other sub-checkers and the extra entries are. -/
theorem C1_some_not_up_gives_down (c : CompositeChecker) (item : checkerItem)
    (hm : item ∈ c.checkers) (hnu : (item.checker.Check ()).IsUp = false) :
    c.Check.status = down ∧ c.Check.IsDown = true ∧ c.Check.IsUp = false ∧
      c.Check.IsOutOfService = false ∧ c.Check.IsUnknown = false := by
  have hany : c.checkers.any notUp = true :=
    (CompositeChecker.any_notUp_iff _).mpr ⟨item, hm, hnu⟩
  have hs : c.Check.status = down := by
    rw [CompositeChecker.Check_status, hany]
    rfl
  simp [Health.IsDown, Health.IsUp, Health.IsOutOfService, Health.IsUnknown, hs, up, down,
    outOfService, unknown]

/-- Witness of C1: an OUT OF SERVICE sub-checker between two UP ones, with an extra entry;
the aggregate is DOWN, not OUT OF SERVICE. -/
theorem C1_some_not_up_gives_down_witness :
    itemOut ∈ betweenUps.checkers ∧ (itemOut.checker.Check ()).IsUp = false ∧
    (itemOut.checker.Check ()).status = outOfService ∧
    betweenUps.Check.status = down ∧ betweenUps.Check.IsDown = true ∧
    betweenUps.Check.IsUp = false ∧ betweenUps.Check.IsOutOfService = false ∧
    betweenUps.Check.IsUnknown = false :=
  ⟨by simp [betweenUps], rfl, rfl,
   C1_some_not_up_gives_down betweenUps itemOut (by simp [betweenUps]) rfl⟩

/-- C2: when every registered sub-checker returns a report with status UP, and in particular
when no sub-checker is registered, `CompositeChecker.Check` returns a report with status UP,
whatever the extra entries are. -/
theorem C2_all_up_gives_up (c : CompositeChecker) :
    ((∀ item ∈ c.checkers, (item.checker.Check ()).IsUp = true) →
        c.Check.status = up ∧ c.Check.IsUp = true) ∧
    (c.checkers = [] → c.Check.status = up ∧ c.Check.IsUp = true) := by
  have key : (∀ item ∈ c.checkers, (item.checker.Check ()).IsUp = true) →
      c.Check.status = up ∧ c.Check.IsUp = true := by
    intro hall
    have hany : c.checkers.any notUp = false := by
      cases h : c.checkers.any notUp with
      | false => rfl
      | true =>
        obtain ⟨item, hm, hn⟩ := (CompositeChecker.any_notUp_iff _).mp h
        rw [hall item hm] at hn
        cases hn
    have hs : c.Check.status = up := by
      rw [CompositeChecker.Check_status, hany]
      rfl
    exact ⟨hs, by simp [Health.IsUp, hs]⟩
  refine ⟨key, fun hnil => key ?_⟩
  intro item hm
  rw [hnil] at hm
  cases hm

/-- Witness of C2: two UP sub-checkers and one extra entry. -/
theorem C2_all_up_gives_up_witness :
    (∀ item ∈ [({ name := "a", checker := fixedChecker NewHealth.Up } : checkerItem),
        { name := "b", checker := fixedChecker (NewHealth.Up.AddInfo "code" (Value.int 200)) }],
      (item.checker.Check ()).IsUp = true) ∧
    (CompositeChecker.Check
      { checkers := [{ name := "a", checker := fixedChecker NewHealth.Up },
          { name := "b", checker := fixedChecker (NewHealth.Up.AddInfo "code" (Value.int 200)) }],
        info := some [("status", Value.str "DOWN")] }).IsUp = true :=
  ⟨by simp [fixedChecker, CheckerFunc, Health.IsUp, Health.Up, Health.AddInfo, NewHealth,
      Health.Unknown],
   ((C2_all_up_gives_up
      { checkers := [{ name := "a", checker := fixedChecker NewHealth.Up },
          { name := "b", checker := fixedChecker (NewHealth.Up.AddInfo "code" (Value.int 200)) }],
        info := some [("status", Value.str "DOWN")] }).1
      (by simp [fixedChecker, CheckerFunc, Health.IsUp, Health.Up, Health.AddInfo, NewHealth,
        Health.Unknown])).2⟩

/-- C3: registering the same named sub-checkers with `AddChecker` in two orders that are
permutations of one another, on the same composite, gives reports with the same status. -/
theorem C3_status_order_independent (c₀ : CompositeChecker) (l l' : List checkerItem)
    (hp : l.Perm l') :
    (c₀.register l).Check.status = (c₀.register l').Check.status := by
  have h : (c₀.register l).checkers.any notUp = (c₀.register l').checkers.any notUp := by
    rw [CompositeChecker.register_checkers, CompositeChecker.register_checkers]
    exact CompositeChecker.any_notUp_perm (List.Perm.append_left _ hp)
  rw [CompositeChecker.Check_status, CompositeChecker.Check_status, h]

/-- Witness of C3: a DOWN and an UP sub-checker registered in both orders. -/
theorem C3_status_order_independent_witness :
    [({ name := "a", checker := fixedChecker NewHealth.Down } : checkerItem),
      { name := "b", checker := fixedChecker NewHealth.Up }].Perm
      [{ name := "b", checker := fixedChecker NewHealth.Up },
        { name := "a", checker := fixedChecker NewHealth.Down }] ∧
    (NewCompositeChecker.register
      [{ name := "a", checker := fixedChecker NewHealth.Down },
        { name := "b", checker := fixedChecker NewHealth.Up }]).Check.status =
    (NewCompositeChecker.register
      [{ name := "b", checker := fixedChecker NewHealth.Up },
        { name := "a", checker := fixedChecker NewHealth.Down }]).Check.status :=
  ⟨List.Perm.swap _ _ _, C3_status_order_independent NewCompositeChecker _ _ (List.Perm.swap _ _ _)⟩

/-- C4, as amended: for every composite node of a finite tree of checkers (the root or a
nested one), the status of its report is DOWN exactly when some leaf below it, at any depth,
does not report UP, and UP exactly when all of them report UP; and when a child is the last
entry registered under its name and that name is not a key of the node's extra entries, the
node's report holds under that name the child's own report: for a nested composite, a
`Health` with the composite's own aggregate status that in turn holds the reports of the
composite's children under the same condition one level deeper. -/
theorem C4_tree_of_checkers (children : List (String × CheckerTree))
    (inf : Option (GoMap Value)) :
    let report := (CheckerTree.composite children inf).toChecker.Check ()
    (report.status = down ↔ ∃ h ∈ (CheckerTree.composite children inf).leaves, h.IsUp = false) ∧
    (report.status = up ↔ ∀ h ∈ (CheckerTree.composite children inf).leaves, h.IsUp = true) ∧
    (∀ pre post n t, children = pre ++ (n, t) :: post → n ∉ post.map Prod.fst →
      n ∉ GoMap.keys (inf.getD []) → report.GetInfo n = Value.ofHealth (t.toChecker.Check ())) ∧
    (∀ pre post n cs inf', children = pre ++ (n, CheckerTree.composite cs inf') :: post →
      n ∉ post.map Prod.fst → n ∉ GoMap.keys (inf.getD []) →
      ∃ nested : Health, report.GetInfo n = Value.ofHealth nested ∧
        (nested.status = down ↔ ∃ h ∈ CheckerTree.leavesOf cs, h.IsUp = false) ∧
        (nested.status = up ↔ ∀ h ∈ CheckerTree.leavesOf cs, h.IsUp = true) ∧
        ∀ pre' post' n' t', cs = pre' ++ (n', t') :: post' → n' ∉ post'.map Prod.fst →
          n' ∉ GoMap.keys (inf'.getD []) →
          nested.GetInfo n' = Value.ofHealth (t'.toChecker.Check ())) := by
  intro report
  refine ⟨CheckerTree.status_down_iff children inf, CheckerTree.status_up_iff children inf,
    ?_, ?_⟩
  · intro pre post n t hc hpost hinf
    subst hc
    exact CheckerTree.GetInfo_child pre post n t inf hpost hinf
  · intro pre post n cs inf' hc hpost hinf
    subst hc
    refine ⟨(CheckerTree.composite cs inf').toChecker.Check (),
      CheckerTree.GetInfo_child pre post n _ inf hpost hinf, ?_, ?_, ?_⟩
    · have h := CheckerTree.status_down_iff cs inf'
      rwa [CheckerTree.leaves] at h
    · have h := CheckerTree.status_up_iff cs inf'
      rwa [CheckerTree.leaves] at h
    · intro pre' post' n' t' hc' hpost' hinf'
      subst hc'
      exact CheckerTree.GetInfo_child pre' post' n' t' inf' hpost' hinf'

/-- Witness of C4: the root holds "group", a composite over "X" (UP) and "Y" (DOWN). -/
theorem C4_tree_of_checkers_witness :
    ∃ nested : Health,
      ((CheckerTree.composite
          [("group", CheckerTree.composite
            [("X", CheckerTree.leaf NewHealth.Up), ("Y", CheckerTree.leaf NewHealth.Down)] none)]
          none).toChecker.Check ()).GetInfo "group" = Value.ofHealth nested ∧
      (nested.status = down ↔
        ∃ h ∈ CheckerTree.leavesOf
          [("X", CheckerTree.leaf NewHealth.Up), ("Y", CheckerTree.leaf NewHealth.Down)],
          h.IsUp = false) ∧
      (nested.status = up ↔
        ∀ h ∈ CheckerTree.leavesOf
          [("X", CheckerTree.leaf NewHealth.Up), ("Y", CheckerTree.leaf NewHealth.Down)],
          h.IsUp = true) ∧
      ∀ pre' post' n' t',
        [("X", CheckerTree.leaf NewHealth.Up), ("Y", CheckerTree.leaf NewHealth.Down)] =
          pre' ++ (n', t') :: post' → n' ∉ post'.map Prod.fst →
        n' ∉ GoMap.keys ((none : Option (GoMap Value)).getD []) →
        nested.GetInfo n' = Value.ofHealth (t'.toChecker.Check ()) :=
  (C4_tree_of_checkers
    [("group", CheckerTree.composite
      [("X", CheckerTree.leaf NewHealth.Up), ("Y", CheckerTree.leaf NewHealth.Down)] none)]
    none).2.2.2 [] [] "group"
    [("X", CheckerTree.leaf NewHealth.Up), ("Y", CheckerTree.leaf NewHealth.Down)] none rfl
    (by simp) (by simp [GoMap.keys])

/-- C4 as stated fails: with two children registered under the name "group", the first a
composite over "X" (UP) and "Y" (DOWN) and the second a leaf reporting UP, the root is DOWN
and the composite's own report is DOWN, but the root holds under "group" the leaf's UP
report and not the composite's. -/
theorem C4_counterexample :
    ((CheckerTree.composite
        [("group", CheckerTree.composite
          [("X", CheckerTree.leaf NewHealth.Up), ("Y", CheckerTree.leaf NewHealth.Down)] none),
         ("group", CheckerTree.leaf NewHealth.Up)] none).toChecker.Check ()).status = down ∧
    ((CheckerTree.composite
        [("X", CheckerTree.leaf NewHealth.Up), ("Y", CheckerTree.leaf NewHealth.Down)]
        none).toChecker.Check ()).status = down ∧
    ((CheckerTree.composite
        [("group", CheckerTree.composite
          [("X", CheckerTree.leaf NewHealth.Up), ("Y", CheckerTree.leaf NewHealth.Down)] none),
         ("group", CheckerTree.leaf NewHealth.Up)] none).toChecker.Check ()).GetInfo "group" =
      Value.health "UP" (some []) ∧
    ((CheckerTree.composite
        [("group", CheckerTree.composite
          [("X", CheckerTree.leaf NewHealth.Up), ("Y", CheckerTree.leaf NewHealth.Down)] none),
         ("group", CheckerTree.leaf NewHealth.Up)] none).toChecker.Check ()).GetInfo "group" ≠
      Value.ofHealth ((CheckerTree.composite
        [("X", CheckerTree.leaf NewHealth.Up), ("Y", CheckerTree.leaf NewHealth.Down)]
        none).toChecker.Check ()) := by
  refine ⟨rfl, rfl, rfl, ?_⟩
  intro h
  have h2 : Value.health "UP" (some []) = Value.ofHealth ((CheckerTree.composite
        [("X", CheckerTree.leaf NewHealth.Up), ("Y", CheckerTree.leaf NewHealth.Down)]
        none).toChecker.Check ()) := h
  have h3 : ("UP" : String) = "DOWN" := by
    injection h2
  exact absurd h3 (by decide)

/-- C5: in the mapping built by `Health.MarshalJSON` the key "status" holds the status of
the report, whatever the info bag holds under "status": this is so in the map handed to
`json.Marshal` and in the serialized object, for every report and so for every report
returned by a composite; a report with status UP and the info entry "status": 42 serializes
to the single member "status": "UP". -/
theorem C5_status_key_is_report_status (h : Health) (c : CompositeChecker) (v : Value) :
    GoMap.find? h.marshalData "status" = some (Value.str h.status) ∧
    h.MarshalJSON.member? "status" = some (Json.str h.status) ∧
    (h.AddInfo "status" v).MarshalJSON.member? "status" = some (Json.str h.status) ∧
    c.Check.MarshalJSON.member? "status" = some (Json.str c.Check.status) ∧
    (NewHealth.Up.AddInfo "status" (Value.int 42)).MarshalJSON =
      Json.obj [("status", Json.str "UP")] := by
  refine ⟨?_, ?_, ?_, ?_, rfl⟩
  · simp [Health.find?_marshalData]
  · simp [Health.member?_MarshalJSON]
  · simp [Health.member?_MarshalJSON, Health.AddInfo_status]
  · simp [Health.member?_MarshalJSON]

/-- C6, as amended: for every report the object serialized by `Health.MarshalJSON` has each
key once, its keys are exactly the keys of the info bag together with "status", each info key
other than "status" holds the encoding of the value stored in the bag, and "status" holds the
status string of the report; that string is one of "UP", "DOWN", "OUT OF SERVICE", "UNKNOWN"
whenever the status of the report is one of the four status values, as it is after each
mutator, for every report made from `NewHealth` by the mutators and for every report
returned by `Check`; the report with status UP and info code: 200 serializes to exactly
code: 200, status: "UP". -/
theorem C6_serialized_mapping (h : Health) (ms : List Mutation) (c : CompositeChecker) :
    (∀ k, k ∈ h.MarshalJSON.keys ↔ k = "status" ∨ k ∈ GoMap.keys (h.info.getD [])) ∧
    h.MarshalJSON.keys.Nodup ∧
    (∀ k, k ∈ GoMap.keys (h.info.getD []) → k ≠ "status" →
      GoMap.find? h.marshalData k = some (h.GetInfo k) ∧
      h.MarshalJSON.member? k = some (Value.toJson (h.GetInfo k))) ∧
    h.MarshalJSON.member? "status" = some (Json.str h.status) ∧
    ((h.status = up ∨ h.status = down ∨ h.status = outOfService ∨ h.status = unknown) →
      (h.MarshalJSON.member? "status" = some (Json.str "UP") ∨
        h.MarshalJSON.member? "status" = some (Json.str "DOWN") ∨
        h.MarshalJSON.member? "status" = some (Json.str "OUT OF SERVICE") ∨
        h.MarshalJSON.member? "status" = some (Json.str "UNKNOWN"))) ∧
    ((NewHealth.mutate ms).MarshalJSON.member? "status" = some (Json.str "UP") ∨
      (NewHealth.mutate ms).MarshalJSON.member? "status" = some (Json.str "DOWN") ∨
      (NewHealth.mutate ms).MarshalJSON.member? "status" = some (Json.str "OUT OF SERVICE") ∨
      (NewHealth.mutate ms).MarshalJSON.member? "status" = some (Json.str "UNKNOWN")) ∧
    (c.Check.MarshalJSON.member? "status" = some (Json.str "UP") ∨
      c.Check.MarshalJSON.member? "status" = some (Json.str "DOWN")) ∧
    h.Up.MarshalJSON.member? "status" = some (Json.str "UP") ∧
    h.Down.MarshalJSON.member? "status" = some (Json.str "DOWN") ∧
    h.OutOfService.MarshalJSON.member? "status" = some (Json.str "OUT OF SERVICE") ∧
    h.Unknown.MarshalJSON.member? "status" = some (Json.str "UNKNOWN") ∧
    (NewHealth.Up.AddInfo "code" (Value.int 200)).MarshalJSON =
      Json.obj [("code", Json.num 200), ("status", Json.str "UP")] := by
  have four : ∀ g : Health,
      (g.status = up ∨ g.status = down ∨ g.status = outOfService ∨ g.status = unknown) →
      (g.MarshalJSON.member? "status" = some (Json.str "UP") ∨
        g.MarshalJSON.member? "status" = some (Json.str "DOWN") ∨
        g.MarshalJSON.member? "status" = some (Json.str "OUT OF SERVICE") ∨
        g.MarshalJSON.member? "status" = some (Json.str "UNKNOWN")) := by
    intro g hs
    have hm : g.MarshalJSON.member? "status" = some (Json.str g.status) := by
      simp [Health.member?_MarshalJSON]
    rw [hm]
    rcases hs with hs | hs | hs | hs
    · exact Or.inl (by rw [hs]; rfl)
    · exact Or.inr (Or.inl (by rw [hs]; rfl))
    · exact Or.inr (Or.inr (Or.inl (by rw [hs]; rfl)))
    · exact Or.inr (Or.inr (Or.inr (by rw [hs]; rfl)))
  refine ⟨?_, ?_, ?_, ?_, four h, ?_, ?_, ?_, ?_, ?_, ?_, rfl⟩
  · intro k
    rw [Health.keys_MarshalJSON, Health.mem_keys_marshalData]
  · rw [Health.keys_MarshalJSON]
    exact Health.nodup_keys_marshalData h
  · intro k hk hne
    obtain ⟨w, hw⟩ := Option.isSome_iff_exists.mp ((GoMap.find?_isSome_iff _ k).mpr hk)
    simp [Health.find?_marshalData, Health.member?_MarshalJSON, Health.GetInfo_eq, hne, hw]
  · simp [Health.member?_MarshalJSON]
  · exact four _ (Health.mutate_inv ms NewHealth (Or.inr (Or.inr (Or.inr rfl))) rfl).1
  · have hm : c.Check.MarshalJSON.member? "status" = some (Json.str c.Check.status) := by
      simp [Health.member?_MarshalJSON]
    rw [hm]
    rcases CompositeChecker.Check_status_cases c with hs | hs
    · exact Or.inl (by rw [hs]; rfl)
    · exact Or.inr (by rw [hs]; rfl)
  · simp [Health.member?_MarshalJSON, Health.Up, up]
  · simp [Health.member?_MarshalJSON, Health.Down, down]
  · simp [Health.member?_MarshalJSON, Health.OutOfService, outOfService]
  · simp [Health.member?_MarshalJSON, Health.Unknown, unknown]

/-- Witness of C6: the report with status OUT OF SERVICE and info code: 200 has "status":
"OUT OF SERVICE" in its serialized object. -/
theorem C6_serialized_mapping_witness :
    ((NewHealth.OutOfService.AddInfo "code" (Value.int 200)).status = up ∨
      (NewHealth.OutOfService.AddInfo "code" (Value.int 200)).status = down ∨
      (NewHealth.OutOfService.AddInfo "code" (Value.int 200)).status = outOfService ∨
      (NewHealth.OutOfService.AddInfo "code" (Value.int 200)).status = unknown) ∧
    ((NewHealth.OutOfService.AddInfo "code" (Value.int 200)).MarshalJSON.member? "status" =
        some (Json.str "UP") ∨
      (NewHealth.OutOfService.AddInfo "code" (Value.int 200)).MarshalJSON.member? "status" =
        some (Json.str "DOWN") ∨
      (NewHealth.OutOfService.AddInfo "code" (Value.int 200)).MarshalJSON.member? "status" =
        some (Json.str "OUT OF SERVICE") ∨
      (NewHealth.OutOfService.AddInfo "code" (Value.int 200)).MarshalJSON.member? "status" =
        some (Json.str "UNKNOWN")) ∧
    (NewHealth.OutOfService.AddInfo "code" (Value.int 200)).MarshalJSON =
      Json.obj [("code", Json.num 200), ("status", Json.str "OUT OF SERVICE")] :=
  ⟨Or.inr (Or.inr (Or.inl rfl)),
   (C6_serialized_mapping (NewHealth.OutOfService.AddInfo "code" (Value.int 200)) []
      NewCompositeChecker).2.2.2.2.1 (Or.inr (Or.inr (Or.inl rfl))),
   rfl⟩

/-- C6 as stated fails: the zero value of `Health`, with the empty status and a nil info map,
serializes to the single member "status": "", which is none of the four display strings. -/
theorem C6_counterexample :
    (Health.mk "" none).MarshalJSON = Json.obj [("status", Json.str "")] ∧
    (Health.mk "" none).MarshalJSON.member? "status" = some (Json.str "") ∧
    (Health.mk "" none).MarshalJSON.member? "status" ≠ some (Json.str "UP") ∧
    (Health.mk "" none).MarshalJSON.member? "status" ≠ some (Json.str "DOWN") ∧
    (Health.mk "" none).MarshalJSON.member? "status" ≠ some (Json.str "OUT OF SERVICE") ∧
    (Health.mk "" none).MarshalJSON.member? "status" ≠ some (Json.str "UNKNOWN") := by
  have hm : (Health.mk "" none).MarshalJSON.member? "status" = some (Json.str "") := rfl
  have ne : ∀ s : String, s ≠ "" →
      (Health.mk "" none).MarshalJSON.member? "status" ≠ some (Json.str s) := by
    intro s hs he
    rw [hm] at he
    injection he with he
    injection he with he
    exact hs he.symm
  exact ⟨rfl, hm, ne "UP" (by decide), ne "DOWN" (by decide), ne "OUT OF SERVICE" (by decide),
    ne "UNKNOWN" (by decide)⟩

/-- C7: when the registered names are pairwise distinct, differ from "status" and are not
keys of the extra entries, the report returned by `Check` holds under each registered name
the report of that sub-checker as one nested value, for every sub-checker wherever it stands
in the list; its serialized object has under each name the serialized report of that
sub-checker and under "status" the aggregate status. -/
theorem C7_nested_reports (c : CompositeChecker)
    (hnd : (c.checkers.map (fun i => i.name)).Nodup)
    (hst : ∀ item ∈ c.checkers, item.name ≠ "status")
    (hinf : ∀ item ∈ c.checkers, item.name ∉ GoMap.keys (c.info.getD [])) :
    (∀ item ∈ c.checkers,
      c.Check.GetInfo item.name = Value.ofHealth (item.checker.Check ()) ∧
      c.Check.MarshalJSON.member? item.name = some (item.checker.Check ()).MarshalJSON) ∧
    c.Check.MarshalJSON.member? "status" = some (Json.str c.Check.status) := by
  refine ⟨?_, by simp [Health.member?_MarshalJSON]⟩
  intro item hm
  have hf := CompositeChecker.find?_Check_item c item hnd hm (hinf item hm)
  constructor
  · rw [Health.GetInfo_eq, hf]
    rfl
  · rw [Health.member?_MarshalJSON, if_neg (hst item hm), hf, Option.map_some', toJson_ofHealth]

/-- Witness of C7: "A" reports UP with code: 200 and "B" reports DOWN with error: "timeout";
the serialized root report is A: (code: 200, status: "UP"), B: (error: "timeout",
status: "DOWN"), status: "DOWN". -/
theorem C7_nested_reports_witness :
    (rootAB.checkers.map (fun i => i.name)).Nodup ∧
    (∀ item ∈ rootAB.checkers,
      rootAB.Check.GetInfo item.name = Value.ofHealth (item.checker.Check ()) ∧
      rootAB.Check.MarshalJSON.member? item.name = some (item.checker.Check ()).MarshalJSON) ∧
    rootAB.Check.status = down ∧
    rootAB.Check.MarshalJSON =
      Json.obj [("A", Json.obj [("code", Json.num 200), ("status", Json.str "UP")]),
        ("B", Json.obj [("error", Json.str "timeout"), ("status", Json.str "DOWN")]),
        ("status", Json.str "DOWN")] :=
  ⟨by decide,
   (C7_nested_reports rootAB (by decide) (by simp [rootAB, itemA, itemB])
      (by simp [rootAB, GoMap.keys])).1,
   rfl, rfl⟩

/-- C8: on a response whose status is not yet written, `ServeHTTP` writes 503 Service
Unavailable exactly when the report returned by the handler's `Check` is DOWN, which is
exactly when some registered sub-checker does not report UP, and 200 otherwise; the body
receives the serialized root report. -/
theorem C8_serve_http_status (h : Handler) (w : ResponseWriter) (hw : w.statusCode = none) :
    ((h.ServeHTTP w).statusCode = some StatusServiceUnavailable ↔
      h.CompositeChecker.Check.IsDown = true) ∧
    ((h.ServeHTTP w).statusCode = some StatusOK ↔ h.CompositeChecker.Check.IsDown = false) ∧
    ((h.ServeHTTP w).statusCode = some StatusServiceUnavailable ↔
      ∃ item ∈ h.CompositeChecker.checkers, (item.checker.Check ()).IsUp = false) ∧
    ((h.ServeHTTP w).statusCode = some StatusOK ↔
      ∀ item ∈ h.CompositeChecker.checkers, (item.checker.Check ()).IsUp = true) ∧
    (h.ServeHTTP w).body = w.body ++ [h.CompositeChecker.Check.MarshalJSON] := by
  have hs := Handler.ServeHTTP_statusCode h w hw
  have hd := CompositeChecker.IsDown_Check h.CompositeChecker
  have hex := CompositeChecker.any_notUp_iff h.CompositeChecker.checkers
  have h1 : (h.ServeHTTP w).statusCode = some StatusServiceUnavailable ↔
      h.CompositeChecker.Check.IsDown = true := by
    rw [hs]
    cases h.CompositeChecker.Check.IsDown <;> simp [StatusOK, StatusServiceUnavailable]
  have h2 : (h.ServeHTTP w).statusCode = some StatusOK ↔
      h.CompositeChecker.Check.IsDown = false := by
    rw [hs]
    cases h.CompositeChecker.Check.IsDown <;> simp [StatusOK, StatusServiceUnavailable]
  refine ⟨h1, h2, ?_, ?_, Handler.ServeHTTP_body h w⟩
  · rw [h1, hd, hex]
  · rw [h2, hd]
    constructor
    · intro hf item hm
      cases hu : (item.checker.Check ()).IsUp with
      | true => rfl
      | false =>
        rw [hex.mpr ⟨item, hm, hu⟩] at hf
        cases hf
    · intro hall
      cases ha : h.CompositeChecker.checkers.any notUp with
      | false => rfl
      | true =>
        obtain ⟨item, hm, hn⟩ := hex.mp ha
        rw [hall item hm] at hn
        cases hn

/-- Witness of C8: the handler over "A" (UP) and "B" (DOWN) answers 503 with the serialized
root report as body. -/
theorem C8_serve_http_status_witness :
    (ResponseWriter.mk [] none []).statusCode = none ∧
    (Handler.ServeHTTP { CompositeChecker := rootAB } (ResponseWriter.mk [] none [])).statusCode =
      some 503 ∧
    (Handler.ServeHTTP { CompositeChecker := rootAB } (ResponseWriter.mk [] none [])).body =
      [] ++ [rootAB.Check.MarshalJSON] :=
  ⟨rfl,
   (C8_serve_http_status { CompositeChecker := rootAB } (ResponseWriter.mk [] none []) rfl).1.mpr
     rfl,
   (C8_serve_http_status { CompositeChecker := rootAB } (ResponseWriter.mk [] none [])
     rfl).2.2.2.2⟩

/-- C9: `NewHealth` returns a report with status UNKNOWN, so that of the four predicates only
`IsUnknown` holds, and with an empty, non-nil info bag, so that `GetInfo` gives nil for every
key. -/
theorem C9_NewHealth_unknown_empty :
    NewHealth.status = unknown ∧ NewHealth.IsUnknown = true ∧ NewHealth.IsUp = false ∧
    NewHealth.IsDown = false ∧ NewHealth.IsOutOfService = false ∧ NewHealth.info = some [] ∧
    ∀ k, NewHealth.GetInfo k = Value.nil := by
  refine ⟨rfl, by decide, by decide, by decide, by decide, rfl, fun k => rfl⟩

/-- C10: after each of the mutators `Up`, `Down`, `OutOfService`, `Unknown` the matching
predicate holds and the other three do not, whatever the report was before; applying the
mutator twice gives the same report as applying it once; and a call through a pointer
returns that same pointer, with the mutated report stored behind it and every other address
untouched. -/
theorem C10_status_mutators (h : Health) (σ : Store) (p : Nat) :
    (h.Up.IsUp = true ∧ h.Up.IsDown = false ∧ h.Up.IsOutOfService = false ∧
      h.Up.IsUnknown = false ∧ h.Up.Up = h.Up ∧
      (Store.Up σ p).2 = p ∧ (Store.Up σ p).1 p = (σ p).Up ∧
      (∀ q, q ≠ p → (Store.Up σ p).1 q = σ q) ∧
      (Store.Up (Store.Up σ p).1 (Store.Up σ p).2).1 = (Store.Up σ p).1) ∧
    (h.Down.IsDown = true ∧ h.Down.IsUp = false ∧ h.Down.IsOutOfService = false ∧
      h.Down.IsUnknown = false ∧ h.Down.Down = h.Down ∧
      (Store.Down σ p).2 = p ∧ (Store.Down σ p).1 p = (σ p).Down ∧
      (∀ q, q ≠ p → (Store.Down σ p).1 q = σ q) ∧
      (Store.Down (Store.Down σ p).1 (Store.Down σ p).2).1 = (Store.Down σ p).1) ∧
    (h.OutOfService.IsOutOfService = true ∧ h.OutOfService.IsUp = false ∧
      h.OutOfService.IsDown = false ∧ h.OutOfService.IsUnknown = false ∧
      h.OutOfService.OutOfService = h.OutOfService ∧
      (Store.OutOfService σ p).2 = p ∧ (Store.OutOfService σ p).1 p = (σ p).OutOfService ∧
      (∀ q, q ≠ p → (Store.OutOfService σ p).1 q = σ q) ∧
      (Store.OutOfService (Store.OutOfService σ p).1 (Store.OutOfService σ p).2).1 =
        (Store.OutOfService σ p).1) ∧
    (h.Unknown.IsUnknown = true ∧ h.Unknown.IsUp = false ∧ h.Unknown.IsDown = false ∧
      h.Unknown.IsOutOfService = false ∧ h.Unknown.Unknown = h.Unknown ∧
      (Store.Unknown σ p).2 = p ∧ (Store.Unknown σ p).1 p = (σ p).Unknown ∧
      (∀ q, q ≠ p → (Store.Unknown σ p).1 q = σ q) ∧
      (Store.Unknown (Store.Unknown σ p).1 (Store.Unknown σ p).2).1 = (Store.Unknown σ p).1) := by
  refine ⟨⟨rfl, rfl, rfl, rfl, rfl, rfl, ?_, ?_, ?_⟩, ⟨rfl, rfl, rfl, rfl, rfl, rfl, ?_, ?_, ?_⟩,
    ⟨rfl, rfl, rfl, rfl, rfl, rfl, ?_, ?_, ?_⟩, ⟨rfl, rfl, rfl, rfl, rfl, rfl, ?_, ?_, ?_⟩⟩
  · simp [Store.Up]
  · exact fun q hq => by simp [Store.Up, Function.update, hq]
  · simp [Store.Up, Health.Up]
  · simp [Store.Down]
  · exact fun q hq => by simp [Store.Down, Function.update, hq]
  · simp [Store.Down, Health.Down]
  · simp [Store.OutOfService]
  · exact fun q hq => by simp [Store.OutOfService, Function.update, hq]
  · simp [Store.OutOfService, Health.OutOfService]
  · simp [Store.Unknown]
  · exact fun q hq => by simp [Store.Unknown, Function.update, hq]
  · simp [Store.Unknown, Health.Unknown]

/-- C11: after `AddInfo(k, v)`, also on a report whose info map is still nil, `GetInfo(k)`
returns `v` and `GetInfo` of every other key returns what it returned before; a later
`AddInfo(k, v')` makes `GetInfo(k)` return `v'`, with `k` bound once in the map and keys
that were unique still unique; `GetInfo` of a key that is not in the map returns nil, as it
does on a new report, and leaves the stored report as it was; `AddInfo` through a pointer
returns that pointer. -/
theorem C11_add_info_get_info (h : Health) (st : status) (k k' : String) (v v' : Value)
    (σ : Store) (p : Nat) :
    (h.AddInfo k v).GetInfo k = v ∧
    ((Health.mk st none).AddInfo k v).GetInfo k = v ∧
    (k' ≠ k → (h.AddInfo k v).GetInfo k' = h.GetInfo k') ∧
    ((h.AddInfo k v).AddInfo k v').GetInfo k = v' ∧
    (GoMap.keys (((h.AddInfo k v).AddInfo k v').info.getD [])).count k = 1 ∧
    ((GoMap.keys (h.info.getD [])).Nodup →
      (GoMap.keys ((h.AddInfo k v).info.getD [])).Nodup) ∧
    (k ∉ GoMap.keys (h.info.getD []) → h.GetInfo k = Value.nil) ∧
    NewHealth.GetInfo k = Value.nil ∧
    (k' ≠ k → (NewHealth.AddInfo k v).GetInfo k' = Value.nil) ∧
    (Store.GetInfo σ p k).1 = σ ∧ (Store.GetInfo σ p k).2 = (σ p).GetInfo k ∧
    (Store.AddInfo σ p k v).2 = p ∧ (Store.AddInfo σ p k v).1 p = (σ p).AddInfo k v := by
  refine ⟨?_, ?_, ?_, ?_, ?_, ?_, ?_, rfl, ?_, rfl, rfl, rfl, ?_⟩
  · simp [Health.GetInfo_AddInfo]
  · simp [Health.GetInfo_AddInfo]
  · intro hk
    simp [Health.GetInfo_AddInfo, hk]
  · simp [Health.GetInfo_AddInfo]
  · rw [Health.AddInfo_info, Option.getD_some]
    exact GoMap.count_keys_set _ k v'
  · intro hnd
    rw [Health.AddInfo_info, Option.getD_some]
    exact GoMap.nodup_keys_set _ k v hnd
  · intro hk
    rw [Health.GetInfo_eq, GoMap.find?_of_not_mem_keys _ _ hk]
    rfl
  · intro hk
    rw [Health.GetInfo_AddInfo, if_neg hk]
    rfl
  · simp [Store.AddInfo]

/-- Witness of C11: on the report with status UP and info code: 200, adding "error" leaves
"code" as it was, and "missing" is nil. -/
theorem C11_add_info_get_info_witness :
    ((NewHealth.Up.AddInfo "code" (Value.int 200)).AddInfo "error" (Value.str "t")).GetInfo
      "code" = Value.int 200 ∧
    (NewHealth.Up.AddInfo "code" (Value.int 200)).GetInfo "missing" = Value.nil :=
  ⟨((C11_add_info_get_info (NewHealth.Up.AddInfo "code" (Value.int 200)) up "error" "code"
      (Value.str "t") Value.nil (fun _ => NewHealth) 0).2.2.1 (by decide)).trans rfl,
   (C11_add_info_get_info (NewHealth.Up.AddInfo "code" (Value.int 200)) up "missing" "code"
      (Value.str "t") Value.nil (fun _ => NewHealth) 0).2.2.2.2.2.2.1 (by decide)⟩

/-- C12: every report obtained from `NewHealth` by a finite sequence of calls of `Up`,
`Down`, `OutOfService`, `Unknown` and `AddInfo`, and every report returned by
`CompositeChecker.Check`, has one of the four status values, so that exactly one of the
four predicates holds, and has a non-nil info map. -/
theorem C12_status_and_info_invariant (ms : List Mutation) (c : CompositeChecker) :
    (((NewHealth.mutate ms).status = up ∨ (NewHealth.mutate ms).status = down ∨
        (NewHealth.mutate ms).status = outOfService ∨
        (NewHealth.mutate ms).status = unknown) ∧
      (((NewHealth.mutate ms).IsUp = true ∧ (NewHealth.mutate ms).IsDown = false ∧
          (NewHealth.mutate ms).IsOutOfService = false ∧
          (NewHealth.mutate ms).IsUnknown = false) ∨
        ((NewHealth.mutate ms).IsUp = false ∧ (NewHealth.mutate ms).IsDown = true ∧
          (NewHealth.mutate ms).IsOutOfService = false ∧
          (NewHealth.mutate ms).IsUnknown = false) ∨
        ((NewHealth.mutate ms).IsUp = false ∧ (NewHealth.mutate ms).IsDown = false ∧
          (NewHealth.mutate ms).IsOutOfService = true ∧
          (NewHealth.mutate ms).IsUnknown = false) ∨
        ((NewHealth.mutate ms).IsUp = false ∧ (NewHealth.mutate ms).IsDown = false ∧
          (NewHealth.mutate ms).IsOutOfService = false ∧
          (NewHealth.mutate ms).IsUnknown = true)) ∧
      (NewHealth.mutate ms).info.isSome = true) ∧
    ((c.Check.status = up ∨ c.Check.status = down ∨ c.Check.status = outOfService ∨
        c.Check.status = unknown) ∧
      ((c.Check.IsUp = true ∧ c.Check.IsDown = false ∧ c.Check.IsOutOfService = false ∧
          c.Check.IsUnknown = false) ∨
        (c.Check.IsUp = false ∧ c.Check.IsDown = true ∧ c.Check.IsOutOfService = false ∧
          c.Check.IsUnknown = false) ∨
        (c.Check.IsUp = false ∧ c.Check.IsDown = false ∧ c.Check.IsOutOfService = true ∧
          c.Check.IsUnknown = false) ∨
        (c.Check.IsUp = false ∧ c.Check.IsDown = false ∧ c.Check.IsOutOfService = false ∧
          c.Check.IsUnknown = true)) ∧
      c.Check.info.isSome = true) := by
  have h1 := Health.mutate_inv ms NewHealth (Or.inr (Or.inr (Or.inr rfl))) rfl
  have h2 : c.Check.status = up ∨ c.Check.status = down ∨ c.Check.status = outOfService ∨
      c.Check.status = unknown := by
    rcases CompositeChecker.Check_status_cases c with hs | hs
    · exact Or.inl hs
    · exact Or.inr (Or.inl hs)
  refine ⟨⟨h1.1, Health.exactly_one _ h1.1, h1.2⟩, ⟨h2, Health.exactly_one _ h2, ?_⟩⟩
  rw [CompositeChecker.Check_info]
  rfl

/-- C13: for a key whose live binding in the extra entries is `v`, in particular a key just
added with `CompositeChecker.AddInfo`, the report returned by `Check` gives `v` under that
key, also when a sub-checker is registered under the same name, before or after the call of
`AddInfo`: the extra entry replaces that sub-checker's report. -/
theorem C13_extra_info_wins (c : CompositeChecker) (k : String) (v : Value) (checker : Checker) :
    (GoMap.find? (c.info.getD []) k = some v → c.Check.GetInfo k = v) ∧
    (c.AddInfo k v).Check.GetInfo k = v ∧
    ((c.AddChecker k checker).AddInfo k v).Check.GetInfo k = v ∧
    ((c.AddInfo k v).AddChecker k checker).Check.GetInfo k = v := by
  have key : ∀ c' : CompositeChecker, (c'.AddInfo k v).Check.GetInfo k = v := by
    intro c'
    apply CompositeChecker.GetInfo_of_extra
    rw [CompositeChecker.extra_after_AddInfo, Option.getD_some, GoMap.find?_set, if_pos rfl]
  refine ⟨CompositeChecker.GetInfo_of_extra c k v, key c, key _, ?_⟩
  apply CompositeChecker.GetInfo_of_extra
  have hi : ((c.AddInfo k v).AddChecker k checker).info = (c.AddInfo k v).info := rfl
  rw [hi, CompositeChecker.extra_after_AddInfo, Option.getD_some, GoMap.find?_set, if_pos rfl]

/-- Witness of C13: "A" is also an extra key of the composite over "A" and "B"; the report
holds the extra value under "A". -/
theorem C13_extra_info_wins_witness :
    GoMap.find? ((rootAB.AddInfo "A" (Value.str "extra")).info.getD []) "A" =
      some (Value.str "extra") ∧
    (rootAB.AddInfo "A" (Value.str "extra")).Check.GetInfo "A" = Value.str "extra" :=
  ⟨rfl, (C13_extra_info_wins (rootAB.AddInfo "A" (Value.str "extra")) "A" (Value.str "extra")
    itemA.checker).1 rfl⟩

/-- C14: when several entries are registered under one name that is not a key of the extra
entries, the report returned by `Check` holds under that name the report of the entry
registered last under it, while an earlier entry of that name that does not report UP still
makes the aggregate status DOWN. -/
theorem C14_duplicate_names (pre post : List checkerItem) (item : checkerItem)
    (inf : Option (GoMap Value))
    (hpost : ∀ later ∈ post, later.name ≠ item.name)
    (hinf : item.name ∉ GoMap.keys (inf.getD [])) :
    (CompositeChecker.Check { checkers := pre ++ item :: post, info := inf }).GetInfo item.name =
      Value.ofHealth (item.checker.Check ()) ∧
    ((∃ earlier ∈ pre, earlier.name = item.name ∧ (earlier.checker.Check ()).IsUp = false) →
      (CompositeChecker.Check { checkers := pre ++ item :: post, info := inf }).status =
        down) := by
  refine ⟨CompositeChecker.GetInfo_last pre post item inf hpost hinf, ?_⟩
  rintro ⟨earlier, hm, _, hnu⟩
  rw [CompositeChecker.Check_status]
  have hany : (pre ++ item :: post).any notUp = true :=
    (CompositeChecker.any_notUp_iff _).mpr ⟨earlier, by simp [hm], hnu⟩
  simp only [hany, if_true]

/-- Witness of C14: "n" is registered twice, first reporting DOWN and then UP; the report
shows the UP report under "n" and the aggregate status is DOWN. -/
theorem C14_duplicate_names_witness :
    (CompositeChecker.Check
      { checkers := [{ name := "n", checker := fixedChecker NewHealth.Down }] ++
          { name := "n", checker := fixedChecker NewHealth.Up } :: [],
        info := none }).GetInfo "n" = Value.ofHealth NewHealth.Up ∧
    (CompositeChecker.Check
      { checkers := [{ name := "n", checker := fixedChecker NewHealth.Down }] ++
          { name := "n", checker := fixedChecker NewHealth.Up } :: [],
        info := none }).status = down :=
  ⟨(C14_duplicate_names [{ name := "n", checker := fixedChecker NewHealth.Down }] []
      { name := "n", checker := fixedChecker NewHealth.Up } none (by simp)
      (by simp [GoMap.keys])).1,
   (C14_duplicate_names [{ name := "n", checker := fixedChecker NewHealth.Down }] []
      { name := "n", checker := fixedChecker NewHealth.Up } none (by simp)
      (by simp [GoMap.keys])).2
      ⟨{ name := "n", checker := fixedChecker NewHealth.Down }, by simp, rfl, rfl⟩⟩

/-- C15: `Check` writes no map that was there before the call: the map of the report is a new
one, so the composite has the same entries and the same extra entries afterwards, and the
report agrees with the one computed on values.  Hence a second call returns an equal report
and leaves the first report as it was; and after `AddInfo` on the returned report the
composite still has the same extra entries and a later call returns the report the first
call returned.  The status mutators write only the status field of the report they are
called on. -/
theorem C15_check_writes_only_its_report (c : CompositeCheckerRef) (μ : Memory)
    (hc : ∀ b, c.info = some b → b < μ.next) (key : String) (value : Value) :
    let r₁ := (c.Check μ).1
    let μ₁ := (c.Check μ).2
    let r₂ := (c.Check μ₁).1
    let μ₂ := (c.Check μ₁).2
    let μₘ := (r₁.AddInfo μ₁ key value).2
    (∀ a, a < μ.next → μ₁.maps a = μ.maps a) ∧
    r₁.info = some (μ.next + 1) ∧ r₁.info ≠ c.info ∧
    c.deref μ₁ = c.deref μ ∧
    r₁.deref μ₁ = (c.deref μ).Check ∧
    r₂.deref μ₂ = r₁.deref μ₁ ∧
    r₁.deref μ₂ = r₁.deref μ₁ ∧
    (r₁.AddInfo μ₁ key value).1.deref μₘ = (r₁.deref μ₁).AddInfo key value ∧
    c.deref μₘ = c.deref μ ∧
    (c.Check μₘ).1.deref (c.Check μₘ).2 = r₁.deref μ₁ ∧
    (r₁.Up.info = r₁.info ∧ r₁.Down.info = r₁.info ∧ r₁.OutOfService.info = r₁.info ∧
      r₁.Unknown.info = r₁.info) := by
  intro r₁ μ₁ r₂ μ₂ μₘ
  have hfr : ∀ a, a < μ.next → μ₁.maps a = μ.maps a :=
    fun a ha => CompositeCheckerRef.Check_frame c μ a ha
  have hinfo : r₁.info = some (μ.next + 1) := by
    simp only [r₁, CompositeCheckerRef.Check_fst]
  have hnext : μ₁.next = μ.next + 2 := CompositeCheckerRef.Check_next c μ
  have hd₁ : c.deref μ₁ = c.deref μ := CompositeCheckerRef.deref_frame c μ μ₁ hc hfr
  have hr₁ : r₁.deref μ₁ = (c.deref μ).Check := CompositeCheckerRef.deref_Check c μ hc
  have hc₁ : ∀ b, c.info = some b → b < μ₁.next := by
    intro b hb
    have := hc b hb
    omega
  have hr₂ : r₂.deref μ₂ = r₁.deref μ₁ := by
    rw [hr₁, ← hd₁]
    exact CompositeCheckerRef.deref_Check c μ₁ hc₁
  have hadd : r₁.AddInfo μ₁ key value = (r₁, μ₁.assign (μ.next + 1) key value) :=
    HealthRef.AddInfo_of_info r₁ μ₁ _ key value hinfo
  have hμₘ : μₘ = μ₁.assign (μ.next + 1) key value := by
    simp only [μₘ, hadd]
  have hfrₘ : ∀ a, a < μ.next → μₘ.maps a = μ.maps a := by
    intro a ha
    have h1 : a ≠ μ.next + 1 := by omega
    rw [hμₘ]
    simp only [Memory.assign, Function.update_noteq h1]
    exact hfr a ha
  have hcₘ : ∀ b, c.info = some b → b < μₘ.next := by
    intro b hb
    have := hc b hb
    rw [hμₘ]
    simp only [Memory.assign]
    omega
  have hdₘ : c.deref μₘ = c.deref μ := CompositeCheckerRef.deref_frame c μ μₘ hc hfrₘ
  refine ⟨hfr, hinfo, ?_, hd₁, hr₁, hr₂, ?_, ?_, hdₘ, ?_, ⟨rfl, rfl, rfl, rfl⟩⟩
  · intro he
    have hb := hc (μ.next + 1) (he ▸ hinfo)
    omega
  · have h2 : μ₂.maps (μ.next + 1) = μ₁.maps (μ.next + 1) :=
      CompositeCheckerRef.Check_frame c μ₁ (μ.next + 1) (by omega)
    simp only [HealthRef.deref, Memory.read, hinfo, Option.map_some', h2]
  · rw [hadd, ← hμₘ]
    apply Health.eq_of_fields
    · rw [Health.AddInfo_status]
      rfl
    · rw [Health.AddInfo_info]
      simp [HealthRef.deref, Memory.read, hinfo, hμₘ, Memory.assign]
  · rw [hr₁, ← hdₘ]
    exact CompositeCheckerRef.deref_Check c μₘ hcₘ

/-- Witness of C15: the composite over "A" and "B" with its extra entries in the map at
address 0; a second call of `Check` returns a report equal to the first, and `AddInfo` on
the first report leaves the composite as it was. -/
theorem C15_check_writes_only_its_report_witness :
    (∀ b, refRoot.info = some b → b < refMemory.next) ∧
    (refRoot.Check (refRoot.Check refMemory).2).1.deref
        (refRoot.Check (refRoot.Check refMemory).2).2 =
      (refRoot.Check refMemory).1.deref (refRoot.Check refMemory).2 ∧
    refRoot.deref
        ((refRoot.Check refMemory).1.AddInfo (refRoot.Check refMemory).2 "note"
          (Value.str "x")).2 =
      refRoot.deref refMemory :=
  ⟨fun b hb => by
      have h0 : b = 0 := by
        injection hb with hb
        exact hb.symm
      rw [h0]
      decide,
   (C15_check_writes_only_its_report refRoot refMemory
      (fun b hb => by
        have h0 : b = 0 := by
          injection hb with hb
          exact hb.symm
        rw [h0]
        decide) "note" (Value.str "x")).2.2.2.2.2.1,
   (C15_check_writes_only_its_report refRoot refMemory
      (fun b hb => by
        have h0 : b = 0 := by
          injection hb with hb
          exact hb.symm
        rw [h0]
        decide) "note" (Value.str "x")).2.2.2.2.2.2.2.2.1⟩

/-- C16: the doc comment of `NewHealth` promises a report with status Down; the code calls
`Unknown`, so the report returned has status UNKNOWN and `IsDown` is false. -/
theorem C16_NewHealth_not_down :
    NewHealth.status = unknown ∧ NewHealth.IsUnknown = true ∧ NewHealth.IsDown = false ∧
    NewHealth.status ≠ down := by
  refine ⟨rfl, rfl, rfl, ?_⟩
  decide

/-- C17: each of the mutators `Up`, `Down`, `OutOfService`, `Unknown` leaves the info map as
it is, so `GetInfo` gives the same value for every key before and after; `AddInfo` leaves
the status as it is, so the four predicates give the same value before and after. -/
theorem C17_mutators_frame (h : Health) (k key : String) (v : Value) :
    (h.Up.info = h.info ∧ h.Down.info = h.info ∧ h.OutOfService.info = h.info ∧
      h.Unknown.info = h.info) ∧
    (h.Up.GetInfo k = h.GetInfo k ∧ h.Down.GetInfo k = h.GetInfo k ∧
      h.OutOfService.GetInfo k = h.GetInfo k ∧ h.Unknown.GetInfo k = h.GetInfo k) ∧
    ((h.AddInfo key v).status = h.status ∧ (h.AddInfo key v).IsUp = h.IsUp ∧
      (h.AddInfo key v).IsDown = h.IsDown ∧
      (h.AddInfo key v).IsOutOfService = h.IsOutOfService ∧
      (h.AddInfo key v).IsUnknown = h.IsUnknown) := by
  refine ⟨⟨rfl, rfl, rfl, rfl⟩, ⟨rfl, rfl, rfl, rfl⟩, ?_⟩
  simp [Health.IsUp, Health.IsDown, Health.IsOutOfService, Health.IsUnknown,
    Health.AddInfo_status]

/-- C18: the keys of the info map of the report returned by `Check` are exactly the
registered names together with the keys of the extra entries, each once; so "status" is
among them only as a registered name or an extra key, and the keys of the serialized report
are exactly these together with "status". -/
theorem C18_report_keys (c : CompositeChecker) (k : String) :
    (k ∈ GoMap.keys (c.Check.info.getD []) ↔
      k ∈ c.checkers.map (fun i => i.name) ∨ k ∈ GoMap.keys (c.info.getD [])) ∧
    (GoMap.keys (c.Check.info.getD [])).Nodup ∧
    ("status" ∈ GoMap.keys (c.Check.info.getD []) ↔
      "status" ∈ c.checkers.map (fun i => i.name) ∨ "status" ∈ GoMap.keys (c.info.getD [])) ∧
    (k ∈ c.Check.MarshalJSON.keys ↔
      k = "status" ∨ k ∈ c.checkers.map (fun i => i.name) ∨
        k ∈ GoMap.keys (c.info.getD [])) ∧
    c.Check.MarshalJSON.keys.Nodup := by
  refine ⟨CompositeChecker.mem_keys_Check c k, ?_, CompositeChecker.mem_keys_Check c "status",
    ?_, ?_⟩
  · rw [CompositeChecker.Check_info, Option.getD_some]
    exact GoMap.nodup_keys_copyInto _ _ (GoMap.nodup_keys_copyInto _ _ List.nodup_nil)
  · rw [Health.keys_MarshalJSON, Health.mem_keys_marshalData, CompositeChecker.mem_keys_Check]
  · rw [Health.keys_MarshalJSON]
    exact Health.nodup_keys_marshalData _

/-- C19: `main` registers under "/health/" the handler made by `NewHandler`, which has no
sub-checker and no extra entry; its `Check` returns the report with status UP and an empty
info map, and `ServeHTTP` never writes 503: on a response whose status is not yet written
the status is 200, and the body receives exactly the object with the one member
"status": "UP". -/
theorem C19_main_health_handler (w : ResponseWriter) :
    main.lookup "/health/" = some (Registered.handler NewHandler) ∧
    NewHandler.CompositeChecker.checkers = [] ∧ NewHandler.CompositeChecker.info = none ∧
    NewHandler.CompositeChecker.Check = { status := up, info := some [] } ∧
    NewHandler.CompositeChecker.Check.IsUp = true ∧
    NewHandler.CompositeChecker.Check.IsDown = false ∧
    (NewHandler.ServeHTTP w).statusCode = some (w.statusCode.getD StatusOK) ∧
    (w.statusCode = none → (NewHandler.ServeHTTP w).statusCode = some 200) ∧
    (w.statusCode = none → (NewHandler.ServeHTTP w).statusCode ≠ some 503) ∧
    (NewHandler.ServeHTTP w).body = w.body ++ [Json.obj [("status", Json.str "UP")]] := by
  have hs : (NewHandler.ServeHTTP w).statusCode = some (w.statusCode.getD StatusOK) := by
    cases hw : w.statusCode <;>
      simp [Handler.ServeHTTP, ResponseWriter.Write, ResponseWriter.WriteHeader,
        ResponseWriter.headerAdd, hw, show NewHandler.CompositeChecker.Check.IsDown = false
          from rfl]
  refine ⟨rfl, rfl, rfl, rfl, rfl, rfl, hs, ?_, ?_, ?_⟩
  · intro hw
    rw [hs, hw]
    rfl
  · intro hw
    rw [hs, hw]
    decide
  · rw [Handler.ServeHTTP_body]
    rfl

/-- Witness of C19: a request answered on a new response. -/
theorem C19_main_health_handler_witness :
    (NewHandler.ServeHTTP (ResponseWriter.mk [] none [])).statusCode = some 200 ∧
    (NewHandler.ServeHTTP (ResponseWriter.mk [] none [])).body =
      [] ++ [Json.obj [("status", Json.str "UP")]] :=
  ⟨(C19_main_health_handler (ResponseWriter.mk [] none [])).2.2.2.2.2.2.2.1 rfl,
   (C19_main_health_handler (ResponseWriter.mk [] none [])).2.2.2.2.2.2.2.2.2⟩

/-- C20: for a URL path made of "/" and a non-empty name, `serve` writes exactly the hello
page with the name put verbatim at both places, and reads no file; for every non-empty path
the slice expression is in bounds and `serve` writes a page, which is the page of
`loadFile("index.html")` exactly when the path without its first byte is empty and the hello
page for the rest of the path otherwise; on the empty path the slice expression panics. -/
theorem C20_serve (world : World) (name path : GoString) :
    (name ≠ [] →
      serve world (lit "/" ++ name) =
        some { content := lit "<html><head><title>hello " ++ name ++
                 lit "</title></head><body>hello " ++ name ++ lit "!</body></html>\n",
               filesRead := [] }) ∧
    (path ≠ [] → sliceFrom1 path = some (path.drop 1) ∧ (serve world path).isSome = true) ∧
    (path ≠ [] → path.drop 1 = [] →
      serve world path = some (loadFile world (lit "index.html"))) ∧
    (path.drop 1 ≠ [] →
      serve world path =
        some { content := lit "<html><head><title>hello " ++ path.drop 1 ++
                 lit "</title></head><body>hello " ++ path.drop 1 ++ lit "!</body></html>\n",
               filesRead := [] }) ∧
    (∀ page, serve world path = some page → page.filesRead ≠ [] → path.drop 1 = []) ∧
    sliceFrom1 [] = none ∧ serve world [] = none := by
  have hl : lit "" = [] := rfl
  refine ⟨?_, ?_, ?_, ?_, ?_, rfl, rfl⟩
  · intro hn
    have hs : lit "/" ++ name = 47 :: name := rfl
    rw [hs, serve_cons, hl, if_pos hn]
  · intro hp
    cases path with
    | nil => exact absurd rfl hp
    | cons b rest => simp [serve_cons, sliceFrom1_cons]
  · intro hp hd
    cases path with
    | nil => exact absurd rfl hp
    | cons b rest =>
      have hr : rest = [] := hd
      rw [serve_cons, hl, hr]
      simp
  · intro hd
    cases path with
    | nil => exact absurd rfl hd
    | cons b rest =>
      have hr : rest ≠ [] := hd
      rw [serve_cons, hl, if_pos hr]
      rfl
  · intro page hs hf
    cases path with
    | nil => rfl
    | cons b rest =>
      by_cases hr : rest = []
      · exact hr
      · rw [serve_cons, hl, if_pos hr] at hs
        injection hs with hs
        rw [← hs] at hf
        exact absurd rfl hf

/-- Witness of C20: the path "/bob" gives the hello page for "bob", whatever the files
are. -/
theorem C20_serve_witness :
    lit "bob" ≠ [] ∧
    ∀ world : World, serve world (lit "/bob") =
      some { content := lit "<html><head><title>hello bob</title></head><body>hello bob!</body></html>\n",
             filesRead := [] } :=
  ⟨by decide, fun world =>
    ((C20_serve world (lit "bob") []).1 (by decide)).trans (by rfl)⟩

end health
